import Mathlib

/-!
The frames formatter and the log writer of chrome-protocol-proxy.

A shallow embedding of `logger.go`: `FramesFormatter.Format`, which renders one
logrus entry as a line of text, and `createLogWriter`, which picks the writer a
logger prints to.

Go strings are modelled as lists of Unicode code points (`GoString`), that is,
as valid UTF-8 text; a `[]byte` result is the same text. The library functions
the source calls (`fmt.Sprintf`, `fmt.Sprint`, the `color` wrappers,
`time.Time.Format`, `time.Time.UnixNano`, `math.Abs`) are modelled below from
their documented behaviour, each under the name it has in Go. A `float64` is
modelled by the rational it stands for, with rounding to the nearest value, ties
to even; `int64` arithmetic wraps around.

A call of `Format` either returns or panics on a failed type assertion; in both
cases the formatter it leaves behind is part of the result.
-/

namespace ChromeProtocolProxy

/-- Go `string`, as a list of code points. -/
abbrev GoString := List Char

/-! ## `fmt`: formatted printing with string operands -/

/-- The fields of `fmt.fmt` that `doPrintf` sets for one verb. -/
structure fmtFlags where
  wid : Nat := 0
  prec : Nat := 0
  widPresent : Bool := false
  precPresent : Bool := false
  minus : Bool := false
  plus : Bool := false
  sharp : Bool := false
  space : Bool := false
  zero : Bool := false
  plusV : Bool := false
  sharpV : Bool := false
deriving DecidableEq, Repr

/-- Renderings of a string operand that are left abstract: the quoted forms
(`%q`, `%#v`) and the hexadecimal forms (`%x`, `%X`), each a function of the
flags of the verb and the operand. -/
structure FmtLib where
  /-- The method `fmtQ` of `fmt.fmt`: a quoted string. -/
  fmtQ : fmtFlags → GoString → GoString
  /-- The method `fmtSx` of `fmt.fmt`: hexadecimal encoding, in upper case or not. -/
  fmtSx : fmtFlags → Bool → GoString → GoString

/-- The printer state `fmt.pp` as far as `doPrintf` reads and writes it. -/
structure pp where
  buf : GoString := []
  argNum : Nat := 0
  reordered : Bool := false
  goodArgNum : Bool := true
deriving DecidableEq, Repr

/-- Append text to the output buffer. -/
def pp.writeString (p : pp) (s : GoString) : pp :=
  { p with buf := p.buf ++ s }

def percentBangString : GoString := "%!".toList
def missingString : GoString := "(MISSING)".toList
def badIndexString : GoString := "(BADINDEX)".toList
def extraString : GoString := "%!(EXTRA ".toList
def badWidthString : GoString := "%!(BADWIDTH)".toList
def badPrecString : GoString := "%!(BADPREC)".toList
def noVerbString : GoString := "%!(NOVERB)".toList

/-- The function `tooLarge` of package `fmt`: a width, precision or index above `1e6`. -/
def tooLarge (x : Nat) : Bool := decide (1000000 < x)

/-- The value of a decimal digit. -/
def digitVal (c : Char) : Nat := c.toNat - 48

/-- Whether a character is one of `0` .. `9`. -/
def isDigit (c : Char) : Bool := decide (48 ≤ c.toNat) && decide (c.toNat ≤ 57)

/-- The loop of `parsenum`: read decimal digits, giving up on an overlong number
(the scan then jumps to the end of the text). -/
def parsenumLoop (num : Nat) (isnum : Bool) : GoString → Nat × Bool × GoString
  | [] => (num, isnum, [])
  | c :: cs =>
    if isDigit c then
      if tooLarge num then (0, false, [])
      else parsenumLoop (num * 10 + digitVal c) true cs
    else (num, isnum, c :: cs)

/-- The function `parsenum` of package `fmt` on the text from the current position
to the end: the number, whether one was read, and the text after it. -/
def parsenum (s : GoString) : Nat × Bool × GoString :=
  parsenumLoop 0 false s

/-- The function `parseArgNumber` of package `fmt`, on text that starts with `[`:
the zero-based index (as an integer, `-1` for `[0]`), the text after the bracket
expression, and whether the expression was well formed. -/
def parseArgNumber (format : GoString) : Int × GoString × Bool :=
  if format.length < 3 then (0, format.drop 1, false)
  else
    let body := format.drop 1
    let seg := body.takeWhile (fun c => c != ']')
    let after := body.dropWhile (fun c => c != ']')
    match after with
    | [] => (0, format.drop 1, false)
    | _ :: rest =>
      match parsenum seg with
      | (width, ok, left) =>
        if !ok || !left.isEmpty then (0, rest, false)
        else ((width : Int) - 1, rest, true)

/-- The method `argNumber` of `fmt.pp`: an explicit argument index `[n]` at the
current position, if there is one. Returns the printer, the text after the
index and whether an index was found. -/
def argNumber (p : pp) (format : GoString) (numArgs : Nat) : pp × GoString × Bool :=
  match format with
  | [] => (p, format, false)
  | c :: _ =>
    if c != '[' then (p, format, false)
    else
      let p := { p with reordered := true }
      match parseArgNumber format with
      | (index, rest, ok) =>
        if ok && decide (0 ≤ index) && decide (index < (numArgs : Int)) then
          ({ p with argNum := index.toNat }, rest, true)
        else
          ({ p with goodArgNum := false }, rest, ok)

/-- The function `intFromArg` of package `fmt` for string operands: a string is
never an integer, and the operand is consumed when there is one. -/
def intFromArg (a : List GoString) (argNum : Nat) : Nat × Bool × Nat :=
  if argNum < a.length then (0, false, argNum + 1) else (0, false, argNum)

/-- The flag loop at the start of a verb in `doPrintf`. -/
def scanFlags (f : fmtFlags) : GoString → fmtFlags × GoString
  | [] => (f, [])
  | c :: cs =>
    if c = '#' then scanFlags { f with sharp := true } cs
    else if c = '0' then scanFlags { f with zero := !f.minus } cs
    else if c = '+' then scanFlags { f with plus := true } cs
    else if c = '-' then scanFlags { f with minus := true, zero := false } cs
    else if c = ' ' then scanFlags { f with space := true } cs
    else (f, c :: cs)

/-- The method `writePadding` of `fmt.fmt`: `n` padding characters. -/
def writePadding (f : fmtFlags) (n : Nat) : GoString :=
  List.replicate n (if f.zero then '0' else ' ')

/-- The method `truncateString` of `fmt.fmt`: cut to the precision, counted in runes. -/
def truncateString (f : fmtFlags) (s : GoString) : GoString :=
  if f.precPresent then s.take f.prec else s

/-- The method `padString` of `fmt.fmt`: pad to the width, counted in runes, on
the left, or on the right with the minus flag. -/
def padString (f : fmtFlags) (s : GoString) : GoString :=
  if !f.widPresent || f.wid == 0 then s
  else if !f.minus then writePadding f (f.wid - s.length) ++ s
  else s ++ writePadding f (f.wid - s.length)

/-- The method `fmtS` of `fmt.fmt`. -/
def fmtS (f : fmtFlags) (s : GoString) : GoString :=
  padString f (truncateString f s)

/-- What `printArg(arg, 'v')` prints for a string. -/
def printValue (L : FmtLib) (f : fmtFlags) (arg : GoString) : GoString :=
  if f.sharpV then L.fmtQ f arg else fmtS f arg

/-- The method `badVerb` of `fmt.pp` for a string operand. -/
def badVerb (L : FmtLib) (f : fmtFlags) (verb : Char) (arg : GoString) : GoString :=
  percentBangString ++ [verb] ++ "(".toList ++ "string".toList ++ "=".toList
    ++ printValue L f arg ++ ")".toList

/-- The method `fmtString` of `fmt.pp`. -/
def fmtString (L : FmtLib) (f : fmtFlags) (v : GoString) (verb : Char) : GoString :=
  if verb = 'v' then printValue L f v
  else if verb = 's' then fmtS f v
  else if verb = 'x' then L.fmtSx f false v
  else if verb = 'X' then L.fmtSx f true v
  else if verb = 'q' then L.fmtQ f v
  else badVerb L f verb v

/-- The method `printArg` of `fmt.pp` for a string operand: `%T` and `%p` are
handled first, a string has no address. -/
def printArg (L : FmtLib) (f : fmtFlags) (arg : GoString) (verb : Char) : GoString :=
  if verb = 'T' then fmtS f "string".toList
  else if verb = 'p' then badVerb L f verb arg
  else fmtString L f arg verb

/-- The width part of a verb in `doPrintf`. -/
def scanWidth (p : pp) (f : fmtFlags) (afterIndex : Bool) (a : List GoString)
    (format : GoString) : pp × fmtFlags × Bool × GoString :=
  match format with
  | '*' :: rest =>
    match intFromArg a p.argNum with
    | (wid, widPresent, argNum) =>
      let p := { p with argNum := argNum }
      let p := if !widPresent then p.writeString badWidthString else p
      (p, { f with wid := wid, widPresent := widPresent }, false, rest)
  | _ =>
    match parsenum format with
    | (wid, widPresent, rest) =>
      let p := if afterIndex && widPresent then { p with goodArgNum := false } else p
      (p, { f with wid := wid, widPresent := widPresent }, afterIndex, rest)

/-- The precision part of a verb in `doPrintf`. -/
def scanPrec (p : pp) (f : fmtFlags) (afterIndex : Bool) (a : List GoString)
    (format : GoString) : pp × fmtFlags × Bool × GoString :=
  match format with
  | '.' :: rest =>
    let p := if afterIndex then { p with goodArgNum := false } else p
    match argNumber p rest a.length with
    | (p, rest, afterIndex) =>
      match rest with
      | '*' :: rest =>
        match intFromArg a p.argNum with
        | (prec, precPresent, argNum) =>
          let p := { p with argNum := argNum }
          let p := if !precPresent then p.writeString badPrecString else p
          (p, { f with prec := prec, precPresent := precPresent }, false, rest)
      | _ =>
        match parsenum rest with
        | (prec, precPresent, rest) =>
          if !precPresent then (p, { f with prec := 0, precPresent := true }, afterIndex, rest)
          else (p, { f with prec := prec, precPresent := precPresent }, afterIndex, rest)
  | _ => (p, f, afterIndex, format)

/-- The verb switch at the end of one round of `doPrintf`. -/
def doVerb (L : FmtLib) (a : List GoString) (p : pp) (f : fmtFlags) (verb : Char) : pp :=
  if verb = '%' then p.writeString ['%']
  else if !p.goodArgNum then p.writeString (percentBangString ++ [verb] ++ badIndexString)
  else
    match a.get? p.argNum with
    | none => p.writeString (percentBangString ++ [verb] ++ missingString)
    | some arg =>
      let f := if verb = 'v' then
          { f with sharpV := f.sharp, sharp := false, plusV := f.plus, plus := false }
        else f
      { (p.writeString (printArg L f arg verb)) with argNum := p.argNum + 1 }

/-- The part of one round of `doPrintf` between the `%` and the verb: flags,
argument index, width, precision, argument index. Returns the printer, the
flags and the text from the verb on. -/
def scanVerb (a : List GoString) (p : pp) (format : GoString) : pp × fmtFlags × GoString :=
  match scanFlags {} format with
  | (f, rest) =>
    match argNumber p rest a.length with
    | (p, rest, afterIndex) =>
      match scanWidth p f afterIndex a rest with
      | (p, f, afterIndex, rest) =>
        match scanPrec p f afterIndex a rest with
        | (p, f, afterIndex, rest) =>
          if !afterIndex then
            ((argNumber p rest a.length).1, f, (argNumber p rest a.length).2.1)
          else (p, f, rest)

/-- The format loop of `doPrintf`. Each round copies the text up to the next
`%` and handles one verb; `fuel` bounds the number of rounds. The fast path of
the source (a lower-case verb right after the flags) prints what the general
path prints and is not modelled apart. -/
def doPrintf (L : FmtLib) (a : List GoString) : Nat → pp → GoString → pp
  | 0, p, _ => p
  | fuel + 1, p, format =>
    match format.dropWhile (fun c => c != '%') with
    | [] => { p with goodArgNum := true }.writeString (format.takeWhile (fun c => c != '%'))
    | _ :: rest =>
      match scanVerb a
        ({ p with goodArgNum := true }.writeString (format.takeWhile (fun c => c != '%')))
        rest with
      | (p, _, []) => p.writeString noVerbString
      | (p, f, verb :: rest) => doPrintf L a fuel (doVerb L a p f verb) rest

/-- The check for operands that no verb used, at the end of `doPrintf`. -/
def extraArgs (L : FmtLib) (a : List GoString) (p : pp) : GoString :=
  if !p.reordered && decide (p.argNum < a.length) then
    extraString
      ++ ", ".toList.intercalate
          ((a.drop p.argNum).map (fun arg => "string=".toList ++ printValue L {} arg))
      ++ ")".toList
  else []

/-- The function `fmt.Sprintf` with string operands. -/
def Sprintf (L : FmtLib) (format : GoString) (a : List GoString) : GoString :=
  let p := doPrintf L a (format.length + 1) {} format
  p.buf ++ extraArgs L a p

/-- The function `fmt.Sprint` of one string operand. -/
def Sprint (s : GoString) : GoString := s

/-! ## `color`: terminal colours -/

/-- A colour of package `color`: its list of SGR parameters. -/
structure Color where
  params : List Nat
deriving DecidableEq, Repr

def FgGreen : Nat := 32
def FgYellow : Nat := 33
def FgWhite : Nat := 37
def BgRed : Nat := 41
def FgHiRed : Nat := 91
def FgHiGreen : Nat := 92
def FgHiYellow : Nat := 93
def FgHiBlue : Nat := 94
def FgHiWhite : Nat := 97

/-- The escape character. -/
def escape : Char := Char.ofNat 27

/-- The method `sequence`: the parameters in decimal, separated by semicolons. -/
def Color.sequence (c : Color) : GoString :=
  ";".toList.intercalate (c.params.map (fun n => Nat.toDigits 10 n))

/-- The method `format`: the escape sequence that switches the colour on. -/
def Color.format (c : Color) : GoString :=
  [escape, '['] ++ c.sequence ++ ['m']

/-- The method `unformat`: the escape sequence that resets the terminal. -/
def Color.unformat (_c : Color) : GoString :=
  [escape, '[', '0', 'm']

/-- The method `wrap`: the text between the two escape sequences, or the text
alone when colours are switched off (`color.NoColor`). -/
def Color.wrap (noColor : Bool) (c : Color) (s : GoString) : GoString :=
  if noColor then s else c.format ++ s ++ c.unformat

/-- The method `SprintfFunc`: the returned function takes a FORMAT string, runs
`fmt.Sprintf` on it and wraps the result. -/
def Color.SprintfFunc (L : FmtLib) (noColor : Bool) (c : Color) :
    GoString → List GoString → GoString :=
  fun format a => c.wrap noColor (Sprintf L format a)

/-- The method `SprintFunc`: the returned function runs `fmt.Sprint` on its
operand and wraps the result. -/
def Color.SprintFunc (noColor : Bool) (c : Color) : GoString → GoString :=
  fun s => c.wrap noColor (Sprint s)

/-! ## `time` and `math` -/

/-- An instant of package `time`: seconds and nanoseconds since the Unix epoch,
with the offset of its location at that instant (seconds east of UTC). -/
structure Time where
  sec : Int
  nsec : Nat
  offset : Int
  nsec_lt : nsec < 1000000000

/-- Two's complement wrap-around of 64-bit signed arithmetic. -/
def wrapInt64 (x : Int) : Int :=
  (x + 9223372036854775808) % 18446744073709551616 - 9223372036854775808

/-- The method `UnixNano`: nanoseconds since the Unix epoch as an `int64`. -/
def Time.UnixNano (t : Time) : Int :=
  wrapInt64 (t.sec * 1000000000 + (t.nsec : Int))

/-- The constant `time.Millisecond`, in nanoseconds. -/
def Millisecond : Int := 1000000

/-- A number in decimal, padded with zeros on the left to `w` digits. -/
def zeroPad (w n : Nat) : GoString :=
  List.replicate (w - (Nat.toDigits 10 n).length) '0' ++ Nat.toDigits 10 n

/-- The layout constant `timeFormat` of the source. -/
def timeFormat : GoString := "15:04:05.00000000".toList

/-- The method `Format` with the layout `timeFormat`: hour, minute and second of
the local time in two digits each, then the first eight digits of the
nanoseconds. -/
def Time.Format (t : Time) : GoString :=
  let s : Nat := ((t.sec + t.offset) % 86400).toNat
  zeroPad 2 (s / 3600) ++ [':'] ++ zeroPad 2 (s % 3600 / 60) ++ [':'] ++ zeroPad 2 (s % 60)
    ++ ['.'] ++ zeroPad 8 (t.nsec / 10)

/-- Rounding of a rational to the nearest integer, ties to the even one. -/
def roundHalfEven (q : ℚ) : Int :=
  if q - ⌊q⌋ < 1 / 2 then ⌊q⌋
  else if 1 / 2 < q - ⌊q⌋ then ⌊q⌋ + 1
  else if ⌊q⌋ % 2 = 0 then ⌊q⌋ else ⌊q⌋ + 1

/-- The `float64` nearest to a rational (ties to even), as a rational. Finite
values only: every quantity rounded below is at most `2^63` in magnitude. -/
def roundFloat64 (q : ℚ) : ℚ :=
  if q = 0 then 0
  else
    let ulp : ℚ := 2 ^ (max (Int.log 2 |q|) (-1022) - 52)
    (roundHalfEven (q / ulp) : ℚ) * ulp

/-- The conversion `float64(n)` of an integer. -/
def float64 (n : Int) : ℚ := roundFloat64 (n : ℚ)

/-- Division of two `float64` values. -/
def float64Div (x y : ℚ) : ℚ := roundFloat64 (x / y)

/-- The function `math.Abs`. -/
def mathAbs (x : ℚ) : ℚ := |x|

/-- The magnitude of a number in hundredths, rounded to the nearest, ties to even. -/
def hundredths (x : ℚ) : Nat := (roundHalfEven (|x| * 100)).toNat

/-- The function `strconv.FormatFloat(x, 'f', 2, 64)`: the exact value rounded to
two decimals, ties to even; the whole part, a point and the two decimals. -/
def formatFloat2 (x : ℚ) : GoString :=
  (if x < 0 then ['-'] else []) ++ Nat.toDigits 10 (hundredths x / 100) ++ ['.']
    ++ zeroPad 2 (hundredths x % 100)

/-- The call `fmt.Sprintf("Δ%8.2fms", x)` of the source: the number in a field of
eight characters, padded with blanks on the left. -/
def SprintfDelta (x : ℚ) : GoString :=
  ['Δ'] ++ List.replicate (8 - (formatFloat2 x).length) ' ' ++ formatFloat2 x ++ "ms".toList

/-- The call `fmt.Sprintf("%d", n)` of the source. -/
def SprintfInt (n : Int) : GoString :=
  (if n < 0 then ['-'] else []) ++ Nat.toDigits 10 n.natAbs

/-! ## `logrus`: entries -/

/-- A value stored in the fields of an entry (`interface{}`): an `int`, a
`string`, or a value of any other dynamic type. -/
inductive Value where
  | int (n : Int)
  | string (s : GoString)
  | other
deriving DecidableEq, Repr

/-- The type `logrus.Fields`: a map from keys to values. -/
abbrev Fields := GoString → Option Value

/-- The type `logrus.Entry`, with the fields the formatter reads. -/
structure Entry where
  Data : Fields
  Time : Time
  Level : Nat
  Message : GoString

/-- The constant `logrus.ErrorLevel`. -/
def ErrorLevel : Nat := 2
/-- The constant `logrus.InfoLevel`. -/
def InfoLevel : Nat := 4

/-- The type assertion `v.(int)` on the result of a map lookup. -/
def assertInt : Option Value → Option Int
  | some (Value.int n) => some n
  | _ => none

/-- The type assertion `v.(string)` on the result of a map lookup. -/
def assertString : Option Value → Option GoString
  | some (Value.string s) => some s
  | _ => none

/-! ## `logger.go` -/

def typeRequest : Int := 1
def typeRequestResponse : Int := 2
def typeRequestResponseError : Int := 4
def typeEvent : Int := 8

def levelConnection : Int := 1
def levelProtocol : Int := 2
def levelTarget : Int := 4

def fieldLevel : GoString := "level".toList
def fieldType : GoString := "type".toList
def fieldTargetId : GoString := "targetId".toList
def fieldSessionId : GoString := "sessionId".toList
def fieldRequest : GoString := "request".toList
def fieldMethod : GoString := "method".toList
def fieldInspectorId : GoString := "inspectorId".toList

def requestReplyFormat : GoString := "%-17s %s % 48s(%s) = %s\n".toList
def requestFormat : GoString := "%-17s %s % 48s(%s)\n".toList
def eventFormat : GoString := "%-17s %s % 48s(%s)\n".toList
def protocolFormat : GoString := "%-17s %s\n".toList

/-- The level of a record is the protocol or the target level. -/
def Entry.protocolOrTarget (e : Entry) : Prop :=
  e.Data fieldLevel = some (Value.int levelProtocol)
    ∨ e.Data fieldLevel = some (Value.int levelTarget)

/-- What the code takes from outside `logger.go`: the command-line flags
(declared in another file of the package), and the parts of the libraries that
are left abstract. -/
structure Env where
  flagMicroseconds : Bool
  flagDelta : Bool
  flagQuiet : Bool
  flagDirLogs : GoString
  /-- The variable `color.NoColor`. -/
  noColor : Bool
  fmtLib : FmtLib
  /-- The rendering of an entry under `%+v`. -/
  dumpEntry : Entry → GoString
  /-- The function `filepath.Dir`. -/
  filepathDir : GoString → GoString

def responseColor (env : Env) (format : GoString) : GoString :=
  (Color.mk [FgHiGreen]).SprintfFunc env.fmtLib env.noColor format []
def requestColor (env : Env) (s : GoString) : GoString :=
  (Color.mk [FgHiBlue]).SprintFunc env.noColor s
def requestReplyColor (env : Env) (format : GoString) : GoString :=
  (Color.mk [FgGreen]).SprintfFunc env.fmtLib env.noColor format []
def eventsColor (env : Env) (format : GoString) : GoString :=
  (Color.mk [FgHiRed]).SprintfFunc env.fmtLib env.noColor format []
def protocolColor (env : Env) (format : GoString) : GoString :=
  (Color.mk [FgYellow]).SprintfFunc env.fmtLib env.noColor format []
def protocolError (env : Env) (format : GoString) : GoString :=
  (Color.mk [FgHiYellow, BgRed]).SprintfFunc env.fmtLib env.noColor format []
def targetColor (env : Env) (format : GoString) : GoString :=
  (Color.mk [FgHiWhite]).SprintfFunc env.fmtLib env.noColor format []
def methodColor (env : Env) (format : GoString) : GoString :=
  (Color.mk [FgHiYellow]).SprintfFunc env.fmtLib env.noColor format []
def errorColor (env : Env) (format : GoString) : GoString :=
  (Color.mk [BgRed, FgWhite]).SprintfFunc env.fmtLib env.noColor format []

/-- The type `FramesFormatter`. -/
structure FramesFormatter where
  lastTime : Int
deriving DecidableEq, Repr

/-- How a call of `Format` ends: it returns bytes and an error value (`none` is
the nil error), or a type assertion fails and the call panics. -/
inductive Outcome where
  | returned (bytes : GoString) (err : Option GoString)
  | panicked
deriving DecidableEq, Repr

/-- Lines 64 to 70 of `Format`: the timestamp before the delta is added. -/
def Format.timestamp (env : Env) (e : Entry) : GoString :=
  if env.flagMicroseconds then SprintfInt (Int.tdiv e.Time.UnixNano Millisecond)
  else e.Time.Format

/-- The `float64` operand of the delta (lines 75 to 79 of `Format`). -/
def Format.deltaValue (f : FramesFormatter) (e : Entry) : ℚ :=
  if f.lastTime = 0 then 0
  else mathAbs (float64Div (float64 (wrapInt64 (e.Time.UnixNano - f.lastTime)))
    (float64 Millisecond))

/-- Lines 72 to 84 of `Format`: in delta mode the delta is added to the
timestamp and `lastTime` is set. -/
def Format.stamp (env : Env) (f : FramesFormatter) (e : Entry) : FramesFormatter × GoString :=
  if env.flagDelta then
    ({ lastTime := e.Time.UnixNano },
      Sprintf env.fmtLib "%s %s".toList
        [Format.timestamp env e, SprintfDelta (Format.deltaValue f e)])
  else (f, Format.timestamp env e)

/-- Lines 86 to 126 of `Format`: the choice of the layout, given the timestamp. -/
def Format.layout (env : Env) (timestamp : GoString) (e : Entry) : Outcome :=
  let message := e.Message
  match assertInt (e.Data fieldLevel) with
  | none => Outcome.panicked
  | some protocolLevel =>
    let protocolType : Int := (assertInt (e.Data fieldType)).getD (-1)
    let protocolMethod : GoString := (assertString (e.Data fieldMethod)).getD []
    let unsupported :=
      Outcome.returned ("unsupported entry: ".toList ++ env.dumpEntry e) none
    if protocolLevel = levelConnection then
      if e.Level = ErrorLevel then
        Outcome.returned
          (Sprintf env.fmtLib protocolFormat [timestamp, errorColor env message]) none
      else if e.Level = InfoLevel then
        Outcome.returned
          (Sprintf env.fmtLib protocolFormat [timestamp, protocolColor env message]) none
      else unsupported
    else if protocolLevel = levelProtocol ∨ protocolLevel = levelTarget then
      match assertString (e.Data fieldTargetId) with
      | none => Outcome.panicked
      | some targetId =>
        if protocolType = typeEvent then
          Outcome.returned
            (Sprintf env.fmtLib eventFormat [timestamp, targetColor env targetId,
              methodColor env protocolMethod, eventsColor env message]) none
        else if protocolType = typeRequest then
          Outcome.returned
            (Sprintf env.fmtLib requestFormat [timestamp, targetColor env targetId,
              methodColor env protocolMethod, requestColor env message]) none
        else if protocolType = typeRequestResponse then
          match assertString (e.Data fieldRequest) with
          | none => Outcome.panicked
          | some request =>
            Outcome.returned
              (Sprintf env.fmtLib requestReplyFormat [timestamp, targetColor env targetId,
                methodColor env protocolMethod, requestReplyColor env request,
                responseColor env message]) none
        else if protocolType = typeRequestResponseError then
          match assertString (e.Data fieldRequest) with
          | none => Outcome.panicked
          | some request =>
            Outcome.returned
              (Sprintf env.fmtLib requestReplyFormat [timestamp, targetColor env targetId,
                methodColor env protocolMethod, requestReplyColor env request,
                errorColor env message]) none
        else unsupported
    else unsupported

/-- The method `FramesFormatter.Format`: the formatter after the call, and how
the call ended. -/
def FramesFormatter.Format (env : Env) (f : FramesFormatter) (e : Entry) :
    FramesFormatter × Outcome :=
  ((Format.stamp env f e).1, Format.layout env (Format.stamp env f e).2 e)

/-! ### `createLogWriter` -/

/-- A writer (`io.Writer`) as `createLogWriter` builds it. -/
inductive Writer where
  | Discard
  | Stdout
  | file (path : GoString)
  | MultiWriter (writers : List Writer)

/-- A call to the operating system made by `createLogWriter`. -/
inductive Syscall where
  | Stat (path : GoString)
  | MkdirAll (path : GoString)
  | OpenFile (path : GoString)
deriving DecidableEq, Repr

/-- The answers of the operating system: for each call and path, the error it
returns, if any. -/
structure FileSystem where
  Stat : GoString → Option GoString
  MkdirAll : GoString → Option GoString
  OpenFile : GoString → Option GoString

/-- The function `createLogWriter`: the calls made to the operating system, in
order, and the writer or the error returned. -/
def createLogWriter (env : Env) (fs : FileSystem) (filename : GoString) :
    List Syscall × Except GoString Writer :=
  if filename = [] then
    if env.flagQuiet then ([], Except.ok Writer.Discard)
    else ([], Except.ok Writer.Stdout)
  else
    let logFilePath := Sprintf env.fmtLib (env.flagDirLogs ++ "/%s.log".toList) [filename]
    let dir := env.filepathDir logFilePath
    let mk : List Syscall × Option GoString :=
      match fs.Stat dir with
      | some _ => ([Syscall.Stat dir, Syscall.MkdirAll dir], fs.MkdirAll dir)
      | none => ([Syscall.Stat dir], none)
    match mk.2 with
    | some err => (mk.1, Except.error err)
    | none =>
      match fs.OpenFile logFilePath with
      | some err => (mk.1 ++ [Syscall.OpenFile logFilePath], Except.error err)
      | none =>
        if env.flagQuiet then
          (mk.1 ++ [Syscall.OpenFile logFilePath], Except.ok (Writer.file logFilePath))
        else
          (mk.1 ++ [Syscall.OpenFile logFilePath],
            Except.ok (Writer.MultiWriter [Writer.file logFilePath, Writer.Stdout]))

/-! ### Records with one field changed, and the front of a line -/

/-- The record with its `level` field set to the given level. -/
def Entry.withLevel (e : Entry) (n : Int) : Entry :=
  { e with Data := fun k => if k = fieldLevel then some (Value.int n) else e.Data k }

/-- The record with its `method` field set to the given value, or removed. -/
def Entry.withMethod (e : Entry) (v : Option Value) : Entry :=
  { e with Data := fun k => if k = fieldMethod then v else e.Data k }

/-- The type of a record is one of the four event types. -/
def Entry.hasEventType (e : Entry) : Prop :=
  e.Data fieldType = some (Value.int typeEvent)
    ∨ e.Data fieldType = some (Value.int typeRequest)
    ∨ e.Data fieldType = some (Value.int typeRequestResponse)
    ∨ e.Data fieldType = some (Value.int typeRequestResponseError)

/-- The type of a record is one of the two types that carry a request. -/
def Entry.hasReplyType (e : Entry) : Prop :=
  e.Data fieldType = some (Value.int typeRequestResponse)
    ∨ e.Data fieldType = some (Value.int typeRequestResponseError)

/-- The record matches one of the four protocol- or target-level layouts, with
the given target id: its level is the protocol or the target level, its target
id is that string, and its type is Event or Request, or one of the two reply
types together with a string request. -/
def Entry.matchesLayout (e : Entry) (targetId : GoString) : Prop :=
  e.protocolOrTarget ∧ e.Data fieldTargetId = some (Value.string targetId)
    ∧ (e.Data fieldType = some (Value.int typeEvent)
      ∨ e.Data fieldType = some (Value.int typeRequest)
      ∨ (e.hasReplyType ∧ ∃ rq, e.Data fieldRequest = some (Value.string rq)))

/-- The record matches one of the six layouts: it is a connection-level record
of informational or error severity, or it matches one of the four protocol- or
target-level layouts. -/
def Entry.hasLayout (e : Entry) : Prop :=
  (e.Data fieldLevel = some (Value.int levelConnection)
      ∧ (e.Level = InfoLevel ∨ e.Level = ErrorLevel))
    ∨ ∃ t, e.matchesLayout t

/-- The method name that `Format` reads from a record (lines 87 and 95 to 97):
the `method` field when it is a string, the empty string otherwise. -/
def Entry.protocolMethod (e : Entry) : GoString :=
  (assertString (e.Data fieldMethod)).getD []

/-- The front of a protocol- or target-level line, up to the opening
parenthesis: the timestamp padded on the right to 17 characters, the styled
target id as it is, and the styled method name padded on the left to 48
characters. -/
def lineHead (env : Env) (timestamp targetId method : GoString) : GoString :=
  timestamp ++ List.replicate (17 - timestamp.length) ' ' ++ [' ']
    ++ targetColor env targetId ++ [' ']
    ++ List.replicate (48 - (methodColor env method).length) ' ' ++ methodColor env method

/-! ## Sample inputs -/

/-- A map of fields given by a list of keys and values. -/
def Fields.ofList (l : List (GoString × Value)) : Fields :=
  fun k => l.lookup k

/-- An instance of the abstract renderings; no sample reaches them. -/
def sampleLib : FmtLib :=
  { fmtQ := fun _ s => ['"'] ++ s ++ ['"'], fmtSx := fun _ _ s => s }

/-- Millisecond timestamps, no delta, no colours, logs under `logs`. -/
def sampleEnv : Env :=
  { flagMicroseconds := true
    flagDelta := false
    flagQuiet := false
    flagDirLogs := "logs".toList
    noColor := true
    fmtLib := sampleLib
    dumpEntry := fun e => e.Message
    filepathDir := fun p => ((p.reverse.dropWhile (fun c => c != '/')).drop 1).reverse }

/-- The sample flags with delta mode switched on. -/
def sampleEnvDelta : Env := { sampleEnv with flagDelta := true }

/-- The sample flags with a log directory whose name has a percent sign. -/
def sampleEnvPercentDir : Env := { sampleEnv with flagDirLogs := "/tmp/50%".toList }

/-- An operating system on which every call succeeds and every directory exists. -/
def sampleFileSystem : FileSystem :=
  { Stat := fun _ => none, MkdirAll := fun _ => none, OpenFile := fun _ => none }

/-- The instant 2017-07-14 02:40:00.123456789 UTC. -/
def sampleTime : Time := ⟨1500000000, 123456789, 0, by decide⟩

/-- Five milliseconds after the Unix epoch. -/
def fiveMillis : Time := ⟨0, 5000000, 0, by decide⟩

/-- The instant 5,000,000,000 seconds before the Unix epoch (in 1811). -/
def longBefore : Time := ⟨-5000000000, 0, 0, by decide⟩

/-- The instant 5,000,000,000 seconds after the Unix epoch (in 2128). -/
def longAfter : Time := ⟨5000000000, 0, 0, by decide⟩

/-- The Unix epoch. -/
def epoch : Time := ⟨0, 0, 0, by decide⟩

/-- A connection-level informational record whose message has a percent sign. -/
def connectionEntry : Entry :=
  { Data := Fields.ofList [(fieldLevel, Value.int levelConnection)]
    Time := sampleTime
    Level := InfoLevel
    Message := "a%20b".toList }

/-- A protocol-level record of a request with its response; request and
response both have a percent sign. -/
def replyEntry : Entry :=
  { Data := Fields.ofList [(fieldLevel, Value.int levelProtocol),
      (fieldType, Value.int typeRequestResponse),
      (fieldTargetId, Value.string "t1".toList),
      (fieldMethod, Value.string "Page.navigate".toList),
      (fieldRequest, Value.string "q%20r".toList)]
    Time := sampleTime
    Level := InfoLevel
    Message := "a%20b".toList }

/-- A target-level event whose message has a percent sign. -/
def eventEntry : Entry :=
  { Data := Fields.ofList [(fieldLevel, Value.int levelTarget),
      (fieldType, Value.int typeEvent),
      (fieldTargetId, Value.string "t1".toList),
      (fieldMethod, Value.string "Page.loadEventFired".toList)]
    Time := sampleTime
    Level := InfoLevel
    Message := "a%20b".toList }

/-- The same record as a request. -/
def requestEntry : Entry :=
  { eventEntry with
    Data := Fields.ofList [(fieldLevel, Value.int levelTarget),
      (fieldType, Value.int typeRequest),
      (fieldTargetId, Value.string "t1".toList),
      (fieldMethod, Value.string "Page.loadEventFired".toList)] }

/-- A target-level record without an event type. -/
def untypedEntry : Entry :=
  { Data := Fields.ofList [(fieldLevel, Value.int levelTarget),
      (fieldTargetId, Value.string "t1".toList)]
    Time := sampleTime
    Level := InfoLevel
    Message := "hello".toList }

/-- A protocol-level record without a target id. -/
def noTargetEntry : Entry :=
  { Data := Fields.ofList [(fieldLevel, Value.int levelProtocol),
      (fieldType, Value.int typeEvent)]
    Time := sampleTime
    Level := InfoLevel
    Message := "hello".toList }

/-- A connection-level informational record with the given time. -/
def connectedAt (t : Time) : Entry :=
  { Data := Fields.ofList [(fieldLevel, Value.int levelConnection)]
    Time := t
    Level := InfoLevel
    Message := "connected".toList }

/-! ### A sample of the rendering of an entry under `%+v` -/

/-- The name of a severity, as `logrus.Level.String` gives it. -/
def levelName (l : Nat) : GoString :=
  match l with
  | 0 => "panic".toList
  | 1 => "fatal".toList
  | 2 => "error".toList
  | 3 => "warning".toList
  | 4 => "info".toList
  | 5 => "debug".toList
  | _ => "unknown".toList

/-- The civil date (year, month, day) of a day counted from 1970-01-01. -/
def civilFromDays (days : Int) : Int × Nat × Nat :=
  let z := days + 719468
  let era := z / 146097
  let doe := (z - era * 146097).toNat
  let yoe := (doe - doe / 1460 + doe / 36524 - doe / 146096) / 365
  let doy := doe - (365 * yoe + yoe / 4 - yoe / 100)
  let mp := (5 * doy + 2) / 153
  let d := doy - (153 * mp + 2) / 5 + 1
  let m := if mp < 10 then mp + 3 else mp - 9
  ((yoe : Int) + era * 400 + (if m ≤ 2 then 1 else 0), m, d)

/-- The offset of a zone as `time` prints it: sign, hours and minutes. -/
def zoneOffset (offset : Int) : GoString :=
  (if offset < 0 then ['-'] else ['+'])
    ++ zeroPad 2 (offset.natAbs / 3600) ++ zeroPad 2 (offset.natAbs % 3600 / 60)

/-- The method `String` of `time.Time`, for a time without a monotonic clock
reading, in UTC or in a zone without a name: date, clock, the nanoseconds
without trailing zeros, the offset and the name of the zone. -/
def Time.String (t : Time) : GoString :=
  let s : Nat := ((t.sec + t.offset) % 86400).toNat
  let date := civilFromDays ((t.sec + t.offset) / 86400)
  zeroPad 4 date.1.toNat ++ ['-'] ++ zeroPad 2 date.2.1 ++ ['-'] ++ zeroPad 2 date.2.2
    ++ [' '] ++ zeroPad 2 (s / 3600) ++ [':'] ++ zeroPad 2 (s % 3600 / 60) ++ [':']
    ++ zeroPad 2 (s % 60)
    ++ (if t.nsec = 0 then []
        else ['.'] ++ ((zeroPad 9 t.nsec).reverse.dropWhile (fun c => c == '0')).reverse)
    ++ [' '] ++ zoneOffset t.offset ++ [' ']
    ++ (if t.offset = 0 then "UTC".toList else zoneOffset t.offset)

/-- The keys of `logger.go` in the order in which `fmt` prints a map (sorted). -/
def knownKeys : List GoString :=
  [fieldInspectorId, fieldLevel, fieldMethod, fieldRequest, fieldSessionId, fieldTargetId,
    fieldType]

/-- A value of a map as `%+v` prints it. -/
def printValueOf : Value → GoString
  | Value.int n => SprintfInt n
  | Value.string s => s
  | Value.other => "?".toList

/-- A map of fields as `%+v` prints it, for a map whose keys are among the keys
of `logger.go`. -/
def printFields (d : Fields) : GoString :=
  "map[".toList
    ++ " ".toList.intercalate
        (knownKeys.filterMap (fun k => (d k).map (fun v => k ++ [':'] ++ printValueOf v)))
    ++ "]".toList

/-- A sample of `fmt.Sprintf("%+v", e)` for a pointer to an entry: the fields of
the struct by name between `&\x7b` and `\x7d`. The address of the logger and the
buffer are fixed text. -/
def printEntry (e : Entry) : GoString :=
  "&\x7bLogger:0xc42000e0a0 Data:".toList ++ printFields e.Data
    ++ " Time:".toList ++ e.Time.String
    ++ " Level:".toList ++ levelName e.Level
    ++ " Message:".toList ++ e.Message ++ " Buffer:<nil>\x7d".toList

/-- The sample flags, with entries rendered by `printEntry`. -/
def sampleEnvDump : Env := { sampleEnv with dumpEntry := printEntry }

/-- A protocol-level record with a target id and without an event type. -/
def untypedProtocolEntry : Entry :=
  { Data := Fields.ofList [(fieldLevel, Value.int levelProtocol),
      (fieldTargetId, Value.string "t1".toList)]
    Time := sampleTime
    Level := InfoLevel
    Message := "hello".toList }

/-- A target-level event `Page.loadEventFired` of the target with the given id. -/
def eventOf (targetId : GoString) : Entry :=
  { Data := Fields.ofList [(fieldLevel, Value.int levelTarget),
      (fieldType, Value.int typeEvent),
      (fieldTargetId, Value.string targetId),
      (fieldMethod, Value.string "Page.loadEventFired".toList)]
    Time := sampleTime
    Level := InfoLevel
    Message := "ready".toList }

/-- A target-level request of the target `t1` whose `method` field is the given
value, or is absent. -/
def requestWithMethod (method : Option Value) : Entry :=
  { Data := fun k =>
      if k = fieldMethod then method
      else Fields.ofList [(fieldLevel, Value.int levelTarget),
        (fieldType, Value.int typeRequest),
        (fieldTargetId, Value.string "t1".toList)] k
    Time := sampleTime
    Level := InfoLevel
    Message := "ready".toList }

/-! ## Lemmas on `fmt` -/

theorem parsenumLoop_length (s : GoString) : ∀ (num : Nat) (isnum : Bool),
    (parsenumLoop num isnum s).2.2.length ≤ s.length := by
  induction s with
  | nil => intro num isnum; simp [parsenumLoop]
  | cons c cs ih =>
    intro num isnum
    unfold parsenumLoop
    split
    · split
      · simp
      · exact Nat.le_succ_of_le (ih _ _)
    · simp

theorem parseArgNumber_length (format : GoString) (h : format ≠ []) :
    (parseArgNumber format).2.1.length < format.length := by
  obtain ⟨c, cs, rfl⟩ := List.exists_cons_of_ne_nil h
  unfold parseArgNumber
  split
  · simp
  · simp only [List.drop_succ_cons, List.drop_zero]
    have hd : (cs.dropWhile (fun c => c != ']')).length ≤ cs.length :=
      (List.dropWhile_sublist _).length_le
    split
    · simp
    · rename_i x rest heq
      rw [heq] at hd
      simp only [List.length_cons] at hd ⊢
      split <;> (simp only []; omega)

theorem argNumber_length (p : pp) (format : GoString) (n : Nat) :
    (argNumber p format n).2.1.length ≤ format.length := by
  unfold argNumber
  split
  · simp
  · rename_i c cs
    split
    · simp
    · have := parseArgNumber_length (c :: cs) (by simp)
      simp only []
      split <;> exact Nat.le_of_lt this

theorem scanFlags_length (s : GoString) : ∀ f : fmtFlags,
    (scanFlags f s).2.length ≤ s.length := by
  induction s with
  | nil => intro f; simp [scanFlags]
  | cons c cs ih =>
    intro f
    unfold scanFlags
    repeat (first | (split; exact Nat.le_succ_of_le (ih _)) | simp)

theorem scanWidth_length (p : pp) (f : fmtFlags) (ai : Bool) (a : List GoString)
    (format : GoString) : (scanWidth p f ai a format).2.2.2.length ≤ format.length := by
  unfold scanWidth
  split
  · simp
  · exact parsenumLoop_length format 0 false

theorem scanPrec_length (p : pp) (f : fmtFlags) (ai : Bool) (a : List GoString)
    (format : GoString) : (scanPrec p f ai a format).2.2.2.length ≤ format.length := by
  unfold scanPrec
  split
  · rename_i rest
    generalize (if ai = true then { p with goodArgNum := false } else p) = p1
    have h1 := argNumber_length p1 rest a.length
    rcases hr : argNumber p1 rest a.length with ⟨p2, rest2, ai2⟩
    simp only [hr, List.length_cons] at h1 ⊢
    revert h1
    split
    · intro h1
      simp only [List.length_cons] at h1 ⊢
      omega
    · intro h1
      have h2 := parsenumLoop_length rest2 0 false
      simp only [parsenum]
      rcases hq : parsenumLoop 0 false rest2 with ⟨n, ok, rest3⟩
      simp only [hq] at h2 ⊢
      split <;> (simp only []; omega)
  · simp

theorem scanVerb_length (a : List GoString) (p : pp) (format : GoString) :
    (scanVerb a p format).2.2.length ≤ format.length := by
  unfold scanVerb
  have h1 := scanFlags_length format {}
  rcases e1 : scanFlags {} format with ⟨f1, r1⟩
  rw [e1] at h1
  simp only [] at h1 ⊢
  have h2 := argNumber_length p r1 a.length
  rcases e2 : argNumber p r1 a.length with ⟨p2, r2, ai2⟩
  rw [e2] at h2
  simp only [] at h2 ⊢
  have h3 := scanWidth_length p2 f1 ai2 a r2
  rcases e3 : scanWidth p2 f1 ai2 a r2 with ⟨p3, f3, ai3, r3⟩
  rw [e3] at h3
  simp only [] at h3 ⊢
  have h4 := scanPrec_length p3 f3 ai3 a r3
  rcases e4 : scanPrec p3 f3 ai3 a r3 with ⟨p4, f4, ai4, r4⟩
  rw [e4] at h4
  simp only [] at h4 ⊢
  have h5 := argNumber_length p4 r4 a.length
  split <;> (simp only []; omega)

/-- Fuel beyond the length of the format changes nothing: the loop of `doPrintf`
has finished by then. -/
theorem doPrintf_fuel (L : FmtLib) (a : List GoString) :
    ∀ (n m : Nat) (p : pp) (format : GoString),
      format.length < n → format.length < m →
      doPrintf L a n p format = doPrintf L a m p format := by
  intro n
  induction n with
  | zero => intro m p format h; omega
  | succ n ih =>
    intro m p format hn hm
    obtain ⟨m, rfl⟩ : ∃ k, m = k + 1 := ⟨m - 1, by omega⟩
    unfold doPrintf
    have hd : (format.dropWhile (fun c => c != '%')).length ≤ format.length :=
      (List.dropWhile_sublist _).length_le
    split
    · rfl
    · rename_i x rest heq
      rw [heq] at hd
      have hs := scanVerb_length a
        ({ p with goodArgNum := true }.writeString (format.takeWhile (fun c => c != '%'))) rest
      split
      · rfl
      · rename_i p2 f2 verb rest2 heq2
        rw [heq2] at hs
        simp only [List.length_cons] at hs hd
        exact ih m _ rest2 (by omega) (by omega)

/-- The function `Sprintf` with any larger amount of fuel gives the same text. -/
theorem Sprintf_fuel (L : FmtLib) (format : GoString) (a : List GoString) (n : Nat)
    (h : format.length < n) :
    Sprintf L format a = (doPrintf L a n {} format).buf
      ++ extraArgs L a (doPrintf L a n {} format) := by
  unfold Sprintf
  rw [doPrintf_fuel L a (format.length + 1) n {} format (by omega) h]

/-- A format without `%` and without operands is printed as it is. -/
theorem Sprintf_verbatim (L : FmtLib) (s : GoString) (h : '%' ∉ s) :
    Sprintf L s [] = s := by
  have h1 : s.dropWhile (fun c => c != '%') = [] := by
    rw [List.dropWhile_eq_nil_iff]
    intro c hc
    have : c ≠ '%' := fun e => h (e ▸ hc)
    simpa using this
  have h2 : s.takeWhile (fun c => c != '%') = s := by
    rw [List.takeWhile_eq_self_iff]
    intro c hc
    have : c ≠ '%' := fun e => h (e ▸ hc)
    simpa using this
  simp [Sprintf, doPrintf, h1, h2, pp.writeString, extraArgs]


/-- Text without `%` in front of a `%` is the literal part of a round. -/
theorem takeWhile_literal (lit rest : GoString) (h : '%' ∉ lit) :
    (lit ++ '%' :: rest).takeWhile (fun c => c != '%') = lit
      ∧ (lit ++ '%' :: rest).dropWhile (fun c => c != '%') = '%' :: rest := by
  induction lit with
  | nil => simp
  | cons c cs ih =>
    have hc : c ≠ '%' := fun e => h (e ▸ List.mem_cons_self _ _)
    have hcs : '%' ∉ cs := fun e => h (List.mem_cons_of_mem _ e)
    simp [hc, ih hcs]

/-- One round of `doPrintf` on text that ends with `.log`. -/
theorem doPrintf_tail (L : FmtLib) (a : List GoString) (n : Nat) (p : pp) (h : 4 < n) :
    doPrintf L a n p ".log".toList
      = { p with goodArgNum := true }.writeString ".log".toList := by
  rw [doPrintf_fuel L a n 5 p ".log".toList h (by decide)]
  simp [doPrintf, pp.writeString]

/-- The verb `%s` right after the literal part of a round prints the operand. -/
theorem scanVerb_s (a : List GoString) (p : pp) (rest : GoString) :
    scanVerb a p ('s' :: rest) = (p, {}, 's' :: rest) := by
  simp [scanVerb, scanFlags, argNumber, scanWidth, scanPrec, parsenum, parsenumLoop, isDigit]

/-- The path of the log file for a log directory without `%`: the directory, a
slash, the file name and `.log`. -/
theorem Sprintf_logFilePath (L : FmtLib) (dir name : GoString) (h : '%' ∉ dir) :
    Sprintf L (dir ++ "/%s.log".toList) [name]
      = dir ++ "/".toList ++ name ++ ".log".toList := by
  have hlit : '%' ∉ dir ++ ['/'] := by simp [h]
  have hsplit := takeWhile_literal (dir ++ ['/']) "s.log".toList hlit
  have hform : dir ++ "/%s.log".toList = (dir ++ ['/']) ++ '%' :: "s.log".toList := by simp
  rw [Sprintf_fuel L _ _ (dir.length + 7 + 1) (by simp)]
  rw [hform]
  rw [doPrintf, hsplit.2]
  simp only [hsplit.1]
  have e1 : "s.log".toList = 's' :: ".log".toList := rfl
  rw [e1, scanVerb_s]
  simp only []
  rw [doPrintf_tail L _ _ _ (by omega)]
  simp [doVerb, printArg, fmtString, fmtS, padString, truncateString, extraArgs, pp.writeString]
/-! ## The four format strings of `logger.go` -/

/-- The format `"%s %s"` of line 83: the two operands with a blank between. -/
theorem Sprintf_stamp (L : FmtLib) (a b : GoString) :
    Sprintf L "%s %s".toList [a, b] = a ++ [' '] ++ b := by
  simp [Sprintf, doPrintf, scanVerb, scanFlags, argNumber, scanWidth, scanPrec, parsenum,
    parsenumLoop, doVerb, printArg, fmtString, fmtS, padString, truncateString, writePadding,
    extraArgs, pp.writeString, isDigit, tooLarge, digitVal]

/-- The format `protocolFormat`: the timestamp padded on the right to 17
characters, a blank, the second operand and a line feed. -/
theorem Sprintf_protocolFormat (L : FmtLib) (ts m : GoString) :
    Sprintf L protocolFormat [ts, m]
      = ts ++ List.replicate (17 - ts.length) ' ' ++ [' '] ++ m ++ ['\n'] := by
  simp [protocolFormat, Sprintf, doPrintf, scanVerb, scanFlags, argNumber, scanWidth, scanPrec,
    parsenum, parsenumLoop, doVerb, printArg, fmtString, fmtS, padString, truncateString,
    writePadding, extraArgs, pp.writeString, isDigit, tooLarge, digitVal]

/-- The format `eventFormat`: timestamp padded on the right to 17 characters,
target, method padded on the left to 48 characters, and the last operand in
parentheses. -/
theorem Sprintf_eventFormat (L : FmtLib) (ts t me m : GoString) :
    Sprintf L eventFormat [ts, t, me, m]
      = ts ++ List.replicate (17 - ts.length) ' ' ++ [' '] ++ t ++ [' ']
        ++ List.replicate (48 - me.length) ' ' ++ me ++ ['('] ++ m ++ [')', '\n'] := by
  simp [eventFormat, Sprintf, doPrintf, scanVerb, scanFlags, argNumber, scanWidth, scanPrec,
    parsenum, parsenumLoop, doVerb, printArg, fmtString, fmtS, padString, truncateString,
    writePadding, extraArgs, pp.writeString, isDigit, tooLarge, digitVal]

/-- The format `requestFormat` is the same text as `eventFormat`. -/
theorem requestFormat_eq : requestFormat = eventFormat := rfl

/-- The format `requestReplyFormat`: as `eventFormat`, followed by ` = ` and the
fifth operand. -/
theorem Sprintf_requestReplyFormat (L : FmtLib) (ts t me rq m : GoString) :
    Sprintf L requestReplyFormat [ts, t, me, rq, m]
      = ts ++ List.replicate (17 - ts.length) ' ' ++ [' '] ++ t ++ [' ']
        ++ List.replicate (48 - me.length) ' ' ++ me ++ ['('] ++ rq ++ [')', ' ', '=', ' ']
        ++ m ++ ['\n'] := by
  simp [requestReplyFormat, Sprintf, doPrintf, scanVerb, scanFlags, argNumber, scanWidth,
    scanPrec, parsenum, parsenumLoop, doVerb, printArg, fmtString, fmtS, padString,
    truncateString, writePadding, extraArgs, pp.writeString, isDigit, tooLarge, digitVal]
/-! ## What `Format` returns, layout by layout -/

/-- The formatter after a call is the one the timestamp code leaves. -/
theorem Format_state (env : Env) (f : FramesFormatter) (e : Entry) :
    (f.Format env e).1 = (Format.stamp env f e).1 := rfl

/-- The outcome of a call is the layout rendered with the timestamp of the call. -/
theorem Format_outcome (env : Env) (f : FramesFormatter) (e : Entry) :
    (f.Format env e).2 = Format.layout env (Format.stamp env f e).2 e := rfl

/-- The timestamp with and without delta mode. -/
theorem stamp_text (env : Env) (f : FramesFormatter) (e : Entry) :
    (Format.stamp env f e).2
      = Format.timestamp env e
        ++ (if env.flagDelta then [' '] ++ SprintfDelta (Format.deltaValue f e) else []) := by
  unfold Format.stamp
  split
  · rename_i h
    rw [Sprintf_stamp]
    simp [h]
  · rename_i h
    simp [h]

/-- The value of `lastTime` after the timestamp code. -/
theorem stamp_lastTime (env : Env) (f : FramesFormatter) (e : Entry) :
    (Format.stamp env f e).1.lastTime
      = if env.flagDelta then e.Time.UnixNano else f.lastTime := by
  unfold Format.stamp
  split <;> simp

/-- The assertion `.(int)` succeeds on an integer. -/
theorem assertInt_int (n : Int) : assertInt (some (Value.int n)) = some n := rfl

/-- The assertion `.(string)` succeeds on a string. -/
theorem assertString_string (s : GoString) : assertString (some (Value.string s)) = some s :=
  rfl

/-- A connection-level record of informational severity. -/
theorem layout_connection_info (env : Env) (ts : GoString) (e : Entry)
    (hl : e.Data fieldLevel = some (Value.int levelConnection)) (hs : e.Level = InfoLevel) :
    Format.layout env ts e = Outcome.returned
      (ts ++ List.replicate (17 - ts.length) ' ' ++ [' '] ++ protocolColor env e.Message
        ++ ['\n']) none := by
  simp [Format.layout, hl, hs, assertInt, Sprintf_protocolFormat, InfoLevel, ErrorLevel]

/-- A connection-level record of error severity. -/
theorem layout_connection_error (env : Env) (ts : GoString) (e : Entry)
    (hl : e.Data fieldLevel = some (Value.int levelConnection)) (hs : e.Level = ErrorLevel) :
    Format.layout env ts e = Outcome.returned
      (ts ++ List.replicate (17 - ts.length) ' ' ++ [' '] ++ errorColor env e.Message
        ++ ['\n']) none := by
  simp [Format.layout, hl, hs, assertInt, Sprintf_protocolFormat]

/-- An event of the protocol or target level. -/
theorem layout_event (env : Env) (ts : GoString) (e : Entry) (t : GoString)
    (hl : e.protocolOrTarget) (ht : e.Data fieldTargetId = some (Value.string t))
    (hy : e.Data fieldType = some (Value.int typeEvent)) :
    Format.layout env ts e = Outcome.returned
      (ts ++ List.replicate (17 - ts.length) ' ' ++ [' '] ++ targetColor env t ++ [' ']
        ++ List.replicate
            (48 - (methodColor env ((assertString (e.Data fieldMethod)).getD [])).length) ' '
        ++ methodColor env ((assertString (e.Data fieldMethod)).getD [])
        ++ ['('] ++ eventsColor env e.Message ++ [')', '\n']) none := by
  rcases hl with hl | hl <;>
    simp [Format.layout, hl, ht, hy, assertInt, assertString, Sprintf_eventFormat,
      levelConnection, levelProtocol, levelTarget, typeEvent]

/-- A request of the protocol or target level. -/
theorem layout_request (env : Env) (ts : GoString) (e : Entry) (t : GoString)
    (hl : e.protocolOrTarget) (ht : e.Data fieldTargetId = some (Value.string t))
    (hy : e.Data fieldType = some (Value.int typeRequest)) :
    Format.layout env ts e = Outcome.returned
      (ts ++ List.replicate (17 - ts.length) ' ' ++ [' '] ++ targetColor env t ++ [' ']
        ++ List.replicate
            (48 - (methodColor env ((assertString (e.Data fieldMethod)).getD [])).length) ' '
        ++ methodColor env ((assertString (e.Data fieldMethod)).getD [])
        ++ ['('] ++ requestColor env e.Message ++ [')', '\n']) none := by
  rcases hl with hl | hl <;>
    simp [Format.layout, hl, ht, hy, assertInt, assertString, requestFormat_eq,
      Sprintf_eventFormat, levelConnection, levelProtocol, levelTarget, typeEvent, typeRequest]

/-- A request with its response, at the protocol or target level. -/
theorem layout_response (env : Env) (ts : GoString) (e : Entry) (t rq : GoString)
    (hl : e.protocolOrTarget) (ht : e.Data fieldTargetId = some (Value.string t))
    (hy : e.Data fieldType = some (Value.int typeRequestResponse))
    (hr : e.Data fieldRequest = some (Value.string rq)) :
    Format.layout env ts e = Outcome.returned
      (ts ++ List.replicate (17 - ts.length) ' ' ++ [' '] ++ targetColor env t ++ [' ']
        ++ List.replicate
            (48 - (methodColor env ((assertString (e.Data fieldMethod)).getD [])).length) ' '
        ++ methodColor env ((assertString (e.Data fieldMethod)).getD [])
        ++ ['('] ++ requestReplyColor env rq ++ [')', ' ', '=', ' ']
        ++ responseColor env e.Message ++ ['\n']) none := by
  rcases hl with hl | hl <;>
    simp [Format.layout, hl, ht, hy, hr, assertInt, assertString, Sprintf_requestReplyFormat,
      levelConnection, levelProtocol, levelTarget, typeEvent, typeRequest, typeRequestResponse]

/-- A request with its error, at the protocol or target level. -/
theorem layout_error (env : Env) (ts : GoString) (e : Entry) (t rq : GoString)
    (hl : e.protocolOrTarget) (ht : e.Data fieldTargetId = some (Value.string t))
    (hy : e.Data fieldType = some (Value.int typeRequestResponseError))
    (hr : e.Data fieldRequest = some (Value.string rq)) :
    Format.layout env ts e = Outcome.returned
      (ts ++ List.replicate (17 - ts.length) ' ' ++ [' '] ++ targetColor env t ++ [' ']
        ++ List.replicate
            (48 - (methodColor env ((assertString (e.Data fieldMethod)).getD [])).length) ' '
        ++ methodColor env ((assertString (e.Data fieldMethod)).getD [])
        ++ ['('] ++ requestReplyColor env rq ++ [')', ' ', '=', ' ']
        ++ errorColor env e.Message ++ ['\n']) none := by
  rcases hl with hl | hl <;>
    simp [Format.layout, hl, ht, hy, hr, assertInt, assertString, Sprintf_requestReplyFormat,
      levelConnection, levelProtocol, levelTarget, typeEvent, typeRequest, typeRequestResponse,
      typeRequestResponseError]

/-- A colour function made by `SprintfFunc` returns text without `%` as it is,
between the escape sequences of the colour. -/
theorem SprintfFunc_verbatim (L : FmtLib) (noColor : Bool) (c : Color) (s : GoString)
    (h : '%' ∉ s) : c.SprintfFunc L noColor s [] = c.wrap noColor s := by
  simp [Color.SprintfFunc, Sprintf_verbatim L s h]

/-- A colour function made by `SprintFunc` returns every text as it is, between
the escape sequences of the colour. -/
theorem requestColor_verbatim (env : Env) (s : GoString) :
    requestColor env s = (Color.mk [FgHiBlue]).wrap env.noColor s := rfl

/-- Wrapped text contains the text. -/
theorem wrap_infix (noColor : Bool) (c : Color) (s : GoString) :
    s <:+: c.wrap noColor s := by
  unfold Color.wrap
  split
  · exact List.infix_refl s
  · exact ⟨c.format, c.unformat, rfl⟩

/-- Rounding moves a number by at most one half. -/
theorem abs_roundHalfEven_sub_le (q : ℚ) : |(roundHalfEven q : ℚ) - q| ≤ 1 / 2 := by
  have h1 := Int.floor_le q
  have h2 := Int.lt_floor_add_one q
  unfold roundHalfEven
  split_ifs <;> rw [abs_le] <;> constructor <;> push_cast <;> linarith

/-- An integer is rounded to itself. -/
theorem roundHalfEven_intCast (k : ℤ) : roundHalfEven (k : ℚ) = k := by
  simp [roundHalfEven]

/-- Rounding commutes with negation: ties go to the even neighbour on both sides. -/
theorem roundHalfEven_neg (q : ℚ) : roundHalfEven (-q) = -roundHalfEven q := by
  have h1 := Int.floor_le q
  have h2 := Int.lt_floor_add_one q
  by_cases hq : (⌊q⌋ : ℚ) = q
  · have e1 : q = ((⌊q⌋ : ℤ) : ℚ) := hq.symm
    generalize ⌊q⌋ = k at e1
    subst e1
    rw [← Int.cast_neg, roundHalfEven_intCast, roundHalfEven_intCast]
  · have hlt : (⌊q⌋ : ℚ) < q := lt_of_le_of_ne h1 hq
    have hf : ⌊-q⌋ = -⌊q⌋ - 1 := by
      rw [Int.floor_eq_iff]
      constructor <;> push_cast <;> linarith
    unfold roundHalfEven
    rw [hf]
    push_cast
    split_ifs <;> first | omega | (exfalso; linarith)

/-- The rounding of a non-negative number is non-negative. -/
theorem roundHalfEven_nonneg {q : ℚ} (h : 0 ≤ q) : 0 ≤ roundHalfEven q := by
  have h0 : 0 ≤ ⌊q⌋ := Int.floor_nonneg.mpr h
  unfold roundHalfEven
  split_ifs <;> omega

/-- The conversion to `float64` commutes with negation. -/
theorem roundFloat64_neg (q : ℚ) : roundFloat64 (-q) = -roundFloat64 q := by
  unfold roundFloat64
  by_cases h : q = 0
  · simp [h]
  · have h2 : -q ≠ 0 := neg_ne_zero.mpr h
    simp only [if_neg h, if_neg h2, abs_neg, neg_div, roundHalfEven_neg]
    push_cast
    ring

/-- The conversion to `float64` moves a number that is not below the smallest
normal number by at most the fraction `2^-53` of its magnitude. -/
theorem abs_roundFloat64_sub_le (q : ℚ) (h : (2 : ℚ) ^ (-1022 : ℤ) ≤ |q|) :
    |roundFloat64 q - q| ≤ |q| / 2 ^ 53 := by
  have hpos : 0 < |q| := lt_of_lt_of_le (by positivity) h
  have hq : q ≠ 0 := abs_pos.mp hpos
  have hlog : (-1022 : ℤ) ≤ Int.log 2 |q| :=
    (Int.zpow_le_iff_le_log (by norm_num) hpos).mp (by exact_mod_cast h)
  have hle : ((2 : ℕ) : ℚ) ^ Int.log 2 |q| ≤ |q| := Int.zpow_log_le_self (by norm_num) hpos
  unfold roundFloat64
  rw [if_neg hq, max_eq_left hlog]
  set e := Int.log 2 |q| with he
  have hu : (0 : ℚ) < 2 ^ (e - 52) := by positivity
  have hr := abs_roundHalfEven_sub_le (q / 2 ^ (e - 52))
  have key : (roundHalfEven (q / 2 ^ (e - 52)) : ℚ) * 2 ^ (e - 52) - q
      = ((roundHalfEven (q / 2 ^ (e - 52)) : ℚ) - q / 2 ^ (e - 52)) * 2 ^ (e - 52) := by
    field_simp
  rw [key, abs_mul, abs_of_pos hu]
  have h53 : (2 : ℚ) ^ (e - 52) = 2 ^ e / 2 ^ 52 := by
    rw [zpow_sub₀ (by norm_num : (2 : ℚ) ≠ 0)]
    norm_num
  have hle2 : (2 : ℚ) ^ e ≤ |q| := by exact_mod_cast hle
  calc |(roundHalfEven (q / 2 ^ (e - 52)) : ℚ) - q / 2 ^ (e - 52)| * 2 ^ (e - 52)
      ≤ 1 / 2 * 2 ^ (e - 52) := by
        exact mul_le_mul_of_nonneg_right hr hu.le
    _ = 2 ^ e / 2 ^ 53 := by rw [h53]; ring
    _ ≤ |q| / 2 ^ 53 := by
        apply div_le_div_of_nonneg_right hle2 (by positivity)

/-- An integer below `2^53` in magnitude is a `float64`. -/
theorem roundFloat64_intCast (k : ℤ) (h : |k| < 2 ^ 53) : roundFloat64 (k : ℚ) = k := by
  unfold roundFloat64
  by_cases hk : (k : ℚ) = 0
  · simp [hk]
  · rw [if_neg hk]
    have hk0 : k ≠ 0 := by exact_mod_cast hk
    have hpos : (0 : ℚ) < |(k : ℚ)| := abs_pos.mpr hk
    have h1 : (1 : ℚ) ≤ |(k : ℚ)| := by
      have : (1 : ℤ) ≤ |k| := Int.one_le_abs hk0
      exact_mod_cast this
    have hlo : (0 : ℤ) ≤ Int.log 2 |(k : ℚ)| :=
      (Int.zpow_le_iff_le_log (by norm_num) hpos).mp (by simpa using h1)
    have hhi : Int.log 2 |(k : ℚ)| < 53 :=
      (Int.lt_zpow_iff_log_lt (by norm_num) hpos).mp (by
        have : |(k : ℚ)| < 2 ^ 53 := by exact_mod_cast h
        norm_num
        exact this)
    rw [max_eq_left (by omega)]
    set e := Int.log 2 |(k : ℚ)| with he
    obtain ⟨j, hj⟩ : ∃ j : ℕ, (j : ℤ) = 52 - e := ⟨(52 - e).toNat, by omega⟩
    have hu : (2 : ℚ) ^ (e - 52) = ((2 : ℚ) ^ j)⁻¹ := by
      have : e - 52 = -(j : ℤ) := by omega
      rw [this, zpow_neg, zpow_natCast]
    dsimp only
    rw [hu]
    have hd : (k : ℚ) / ((2 : ℚ) ^ j)⁻¹ = ((k * 2 ^ j : ℤ) : ℚ) := by
      push_cast
      field_simp
    rw [hd, roundHalfEven_intCast]
    push_cast
    field_simp

/-- The smallest normal `float64` is far below half a millionth. -/
theorem tiny_le : (2 : ℚ) ^ (-1022 : ℤ) ≤ 1 / 2000000 := by
  rw [zpow_neg]
  norm_num

/-- The constant `float64(time.Millisecond)` is exactly one million. -/
theorem float64_Millisecond : float64 Millisecond = 1000000 := by
  unfold float64 Millisecond
  exact_mod_cast roundFloat64_intCast 1000000 (by norm_num)

/-- The delta of a difference `d` of two times in nanoseconds (line 78). -/
theorem deltaOf_eq (d : ℤ) :
    mathAbs (float64Div (float64 d) (float64 Millisecond))
      = |roundFloat64 (roundFloat64 (d : ℚ) / 1000000)| := by
  rw [float64_Millisecond]
  rfl

/-- The delta is the same for a difference and its opposite. -/
theorem delta_neg (d : ℤ) :
    mathAbs (float64Div (float64 (-d)) (float64 Millisecond))
      = mathAbs (float64Div (float64 d) (float64 Millisecond)) := by
  rw [deltaOf_eq, deltaOf_eq]
  push_cast
  rw [roundFloat64_neg, neg_div, roundFloat64_neg, abs_neg]

/-- The number of hundredths as a rational. -/
theorem hundredths_cast (x : ℚ) : ((hundredths x : ℕ) : ℚ) = (roundHalfEven (|x| * 100) : ℚ) := by
  unfold hundredths
  have h := roundHalfEven_nonneg (q := |x| * 100) (by positivity)
  have : ((roundHalfEven (|x| * 100)).toNat : ℤ) = roundHalfEven (|x| * 100) :=
    Int.toNat_of_nonneg h
  exact_mod_cast this

/-- The error of the delta before it is printed: twice the relative rounding
error of a `float64`, for a difference that fits 64 bits. -/
theorem delta_error (d : ℤ) :
    |mathAbs (float64Div (float64 d) (float64 Millisecond)) - |(d : ℚ)| / 1000000|
      ≤ |(d : ℚ)| * 3 / (1000000 * 2 ^ 53) := by
  rw [deltaOf_eq]
  by_cases h0 : d = 0
  · subst h0
    simp [roundFloat64]
  · have hA1 : (1 : ℚ) ≤ |(d : ℚ)| := by
      have : (1 : ℤ) ≤ |d| := Int.one_le_abs h0
      exact_mod_cast this
    have hD := abs_roundFloat64_sub_le (d : ℚ) (le_trans tiny_le (by linarith))
    set D := roundFloat64 (d : ℚ) with hDdef
    have hDabs : |D| ≤ |(d : ℚ)| + |(d : ℚ)| / 2 ^ 53 := by
      have := abs_sub_abs_le_abs_sub D (d : ℚ)
      linarith
    have hDlow : |(d : ℚ)| - |(d : ℚ)| / 2 ^ 53 ≤ |D| := by
      have := abs_sub_abs_le_abs_sub (d : ℚ) D
      rw [abs_sub_comm] at this
      linarith
    have hqabs : |D / 1000000| = |D| / 1000000 := by
      rw [abs_div]; norm_num
    have hq := abs_roundFloat64_sub_le (D / 1000000) (by
      rw [hqabs]
      refine le_trans tiny_le ?_
      rw [le_div_iff₀ (by norm_num)]
      have : |(d : ℚ)| / 2 ^ 53 ≤ |(d : ℚ)| / 2 := by
        apply div_le_div_of_nonneg_left (by linarith) (by norm_num) (by norm_num)
      linarith)
    rw [hqabs] at hq
    have h1 : |(d : ℚ)| / 1000000 = |(d : ℚ) / 1000000| := by
      rw [abs_div]; norm_num
    rw [h1]
    refine le_trans (abs_abs_sub_abs_le_abs_sub _ _) ?_
    have h2 : roundFloat64 (D / 1000000) - (d : ℚ) / 1000000
        = (roundFloat64 (D / 1000000) - D / 1000000) + (D - d) / 1000000 := by ring
    rw [h2]
    refine le_trans (abs_add _ _) ?_
    have h3 : |(D - (d : ℚ)) / 1000000| = |D - d| / 1000000 := by
      rw [abs_div]; norm_num
    rw [h3]
    have h4 : |D| / 1000000 / 2 ^ 53 ≤ (|(d : ℚ)| + |(d : ℚ)| / 2 ^ 53) / 1000000 / 2 ^ 53 := by
      gcongr
    have h5 : |D - (d : ℚ)| / 1000000 ≤ |(d : ℚ)| / 2 ^ 53 / 1000000 := by
      gcongr
    have h6 : |(d : ℚ)| / 2 ^ 53 ≤ |(d : ℚ)| := by
      apply div_le_self (by linarith) (by norm_num)
    calc |roundFloat64 (D / 1000000) - D / 1000000| + |D - (d : ℚ)| / 1000000
        ≤ (|(d : ℚ)| + |(d : ℚ)| / 2 ^ 53) / 1000000 / 2 ^ 53
            + |(d : ℚ)| / 2 ^ 53 / 1000000 := by linarith
      _ ≤ (|(d : ℚ)| + |(d : ℚ)|) / 1000000 / 2 ^ 53 + |(d : ℚ)| / 2 ^ 53 / 1000000 := by
          gcongr
      _ = |(d : ℚ)| * 3 / (1000000 * 2 ^ 53) := by ring

/-- The delta is not negative. -/
theorem delta_nonneg (d : ℤ) :
    0 ≤ mathAbs (float64Div (float64 d) (float64 Millisecond)) := abs_nonneg _

/-- The printed delta is within a hundredth of a millisecond of the difference,
for every difference that fits 64 bits. -/
theorem delta_hundredths_close (d : ℤ) (hd : |d| ≤ 2 ^ 63) :
    |((hundredths (mathAbs (float64Div (float64 d) (float64 Millisecond))) : ℕ) : ℚ) / 100
        - |(d : ℚ)| / 1000000| < 1 / 100 := by
  have he := delta_error d
  have hx := delta_nonneg d
  set x := mathAbs (float64Div (float64 d) (float64 Millisecond)) with hxdef
  rw [hundredths_cast, abs_of_nonneg hx]
  have hr := abs_roundHalfEven_sub_le (x * 100)
  have hA : |(d : ℚ)| ≤ 2 ^ 63 := by exact_mod_cast hd
  have hb : |(d : ℚ)| * 3 / (1000000 * 2 ^ 53) ≤ 3072 / 1000000 := by
    rw [div_le_div_iff₀ (by positivity) (by positivity)]
    nlinarith
  rw [abs_le] at he hr
  rw [abs_lt]
  constructor <;> linarith [he.1, he.2, hr.1, hr.2]

/-- The printed delta is the difference in milliseconds rounded to a nearest
hundredth, for every difference below `2^53` nanoseconds. -/
theorem delta_hundredths_nearest (d : ℤ) (hd : |d| < 2 ^ 53) :
    |((hundredths (mathAbs (float64Div (float64 d) (float64 Millisecond))) : ℕ) : ℚ)
        - |(d : ℚ)| / 10000| ≤ 1 / 2 := by
  have hx := delta_nonneg d
  have hxe : mathAbs (float64Div (float64 d) (float64 Millisecond))
      = |roundFloat64 ((d : ℚ) / 1000000)| := by
    rw [deltaOf_eq, roundFloat64_intCast d hd]
  set x := mathAbs (float64Div (float64 d) (float64 Millisecond)) with hxdef
  rw [hundredths_cast, abs_of_nonneg hx]
  have hr := abs_roundHalfEven_sub_le (x * 100)
  set n := roundHalfEven (x * 100) with hn
  have hA : |(d : ℚ)| < 2 ^ 53 := by exact_mod_cast hd
  -- the error of the quotient is below a millionth of a millisecond
  have herr : |x - |(d : ℚ)| / 1000000| < 1 / 1000000 := by
    by_cases h0 : d = 0
    · subst h0
      rw [hxe]
      simp [roundFloat64]
    · have hA1 : (1 : ℚ) ≤ |(d : ℚ)| := by
        have : (1 : ℤ) ≤ |d| := Int.one_le_abs h0
        exact_mod_cast this
      have hqabs : |(d : ℚ) / 1000000| = |(d : ℚ)| / 1000000 := by
        rw [abs_div]; norm_num
      have hq := abs_roundFloat64_sub_le ((d : ℚ) / 1000000) (by
        rw [hqabs]
        refine le_trans tiny_le ?_
        rw [le_div_iff₀ (by norm_num)]
        linarith)
      rw [hqabs] at hq
      rw [hxe, ← hqabs]
      refine lt_of_le_of_lt (abs_abs_sub_abs_le_abs_sub _ _) (lt_of_le_of_lt hq ?_)
      rw [div_div, div_lt_div_iff₀ (by positivity) (by positivity)]
      linarith
  by_contra hcon
  rw [not_le] at hcon
  have hk : ((10000 * n - abs d : ℤ) : ℚ) = 10000 * ((n : ℚ) - |(d : ℚ)| / 10000) := by
    push_cast
    ring
  have hk1 : (5000 : ℚ) < |((10000 * n - abs d : ℤ) : ℚ)| := by
    rw [hk, abs_mul]
    norm_num
    linarith
  have hk2 : (5000 : ℤ) < |10000 * n - abs d| := by exact_mod_cast hk1
  have hk3 : (5001 : ℚ) ≤ |((10000 * n - abs d : ℤ) : ℚ)| := by
    have : (5001 : ℤ) ≤ |10000 * n - abs d| := by omega
    exact_mod_cast this
  rw [hk, abs_mul] at hk3
  have hk4 : (5001 : ℚ) / 10000 ≤ |(n : ℚ) - |(d : ℚ)| / 10000| := by
    have h10 : |(10000 : ℚ)| = 10000 := by norm_num
    rw [h10] at hk3
    linarith
  have htri : |(n : ℚ) - |(d : ℚ)| / 10000|
      ≤ |(n : ℚ) - x * 100| + |x * 100 - |(d : ℚ)| / 10000| := by
    have := abs_add ((n : ℚ) - x * 100) (x * 100 - |(d : ℚ)| / 10000)
    simpa using this
  have h100 : |x * 100 - |(d : ℚ)| / 10000| < 1 / 10000 := by
    have : x * 100 - |(d : ℚ)| / 10000 = 100 * (x - |(d : ℚ)| / 1000000) := by ring
    rw [this, abs_mul]
    have h10 : |(100 : ℚ)| = 100 := by norm_num
    rw [h10]
    linarith
  linarith


/-- Wrap-around leaves a number that fits 64 bits as it is. -/
theorem wrapInt64_of_fits (x : ℤ) (h1 : -9223372036854775808 ≤ x)
    (h2 : x < 9223372036854775808) : wrapInt64 x = x := by
  unfold wrapInt64
  omega

/-- A wrapped number fits 64 bits. -/
theorem wrapInt64_fits (x : ℤ) :
    -9223372036854775808 ≤ wrapInt64 x ∧ wrapInt64 x < 9223372036854775808 := by
  unfold wrapInt64
  omega

/-- The delta of a fresh formatter is printed as `0.00`. -/
theorem SprintfDelta_zero : SprintfDelta 0 = "Δ    0.00ms".toList := by
  have h : hundredths 0 = 0 := by simp [hundredths, roundHalfEven]
  unfold SprintfDelta formatFloat2
  rw [h]
  simp
  decide

/-- The text of a delta that is not negative: the whole part of the hundredths,
a point and the two decimals, in a field of eight characters. -/
theorem SprintfDelta_of_nonneg (x : ℚ) (h : 0 ≤ x) :
    SprintfDelta x
      = ['Δ']
        ++ List.replicate
            (8 - (Nat.toDigits 10 (hundredths x / 100) ++ ['.']
              ++ zeroPad 2 (hundredths x % 100)).length) ' '
        ++ (Nat.toDigits 10 (hundredths x / 100) ++ ['.'] ++ zeroPad 2 (hundredths x % 100))
        ++ "ms".toList := by
  unfold SprintfDelta formatFloat2
  rw [if_neg (not_lt.mpr h)]
  simp
/-! ## The delta of two records -/

/-- In delta mode the formatter that a call leaves holds the time of the record. -/
theorem Format_state_delta (env : Env) (f : FramesFormatter) (e : Entry)
    (h : env.flagDelta = true) : (f.Format env e).1 = ⟨e.Time.UnixNano⟩ := by
  rw [Format_state]
  simp [Format.stamp, h]

/-- The delta of a record against a formatter that holds a time other than 0, when
the difference of the two times fits 64 bits. -/
theorem deltaValue_of_fits (t : ℤ) (e : Entry) (h0 : t ≠ 0)
    (hfit : |e.Time.UnixNano - t| < 2 ^ 63) :
    Format.deltaValue ⟨t⟩ e
      = mathAbs (float64Div (float64 (e.Time.UnixNano - t)) (float64 Millisecond)) := by
  unfold Format.deltaValue
  dsimp only
  rw [if_neg h0, wrapInt64_of_fits]
  · have := neg_abs_le (e.Time.UnixNano - t)
    norm_num at hfit
    omega
  · have := le_abs_self (e.Time.UnixNano - t)
    norm_num at hfit
    omega

/-! ## Records with one field changed -/

/-- The timestamp code reads only the time of a record. -/
theorem stamp_congr (env : Env) (f : FramesFormatter) (e e2 : Entry) (h : e2.Time = e.Time) :
    Format.stamp env f e2 = Format.stamp env f e := by
  simp [Format.stamp, Format.timestamp, Format.deltaValue, h]

/-- The keys of `logger.go` that `Format` reads are different texts. -/
theorem field_keys_ne :
    fieldType ≠ fieldLevel ∧ fieldMethod ≠ fieldLevel ∧ fieldTargetId ≠ fieldLevel
      ∧ fieldRequest ≠ fieldLevel ∧ fieldLevel ≠ fieldMethod ∧ fieldType ≠ fieldMethod
      ∧ fieldTargetId ≠ fieldMethod ∧ fieldRequest ≠ fieldMethod := by
  decide

/-- What `withLevel` leaves in the fields of a record. -/
theorem withLevel_Data (e : Entry) (n : Int) :
    (e.withLevel n).Data fieldLevel = some (Value.int n)
      ∧ (e.withLevel n).Data fieldType = e.Data fieldType
      ∧ (e.withLevel n).Data fieldMethod = e.Data fieldMethod
      ∧ (e.withLevel n).Data fieldTargetId = e.Data fieldTargetId
      ∧ (e.withLevel n).Data fieldRequest = e.Data fieldRequest := by
  obtain ⟨h1, h2, h3, h4, _⟩ := field_keys_ne
  simp [Entry.withLevel, h1, h2, h3, h4]

/-- What `withMethod` leaves in the fields of a record. -/
theorem withMethod_Data (e : Entry) (v : Option Value) :
    (e.withMethod v).Data fieldMethod = v
      ∧ (e.withMethod v).Data fieldLevel = e.Data fieldLevel
      ∧ (e.withMethod v).Data fieldType = e.Data fieldType
      ∧ (e.withMethod v).Data fieldTargetId = e.Data fieldTargetId
      ∧ (e.withMethod v).Data fieldRequest = e.Data fieldRequest := by
  obtain ⟨_, _, _, _, h5, h6, h7, h8⟩ := field_keys_ne
  simp [Entry.withMethod, h5, h6, h7, h8]

/-- The layout of a protocol- or target-level record, in one formula: a panic
without a string target id, one of the four lines, or the line for unsupported
entries. -/
theorem layout_protocolOrTarget (env : Env) (ts : GoString) (e : Entry)
    (hl : e.protocolOrTarget) :
    Format.layout env ts e =
      match assertString (e.Data fieldTargetId) with
      | none => Outcome.panicked
      | some t =>
        if (assertInt (e.Data fieldType)).getD (-1) = typeEvent then
          Outcome.returned (lineHead env ts t e.protocolMethod ++ ['(']
            ++ eventsColor env e.Message ++ [')', '\n']) none
        else if (assertInt (e.Data fieldType)).getD (-1) = typeRequest then
          Outcome.returned (lineHead env ts t e.protocolMethod ++ ['(']
            ++ requestColor env e.Message ++ [')', '\n']) none
        else if (assertInt (e.Data fieldType)).getD (-1) = typeRequestResponse then
          match assertString (e.Data fieldRequest) with
          | none => Outcome.panicked
          | some rq =>
            Outcome.returned (lineHead env ts t e.protocolMethod ++ ['(']
              ++ requestReplyColor env rq ++ [')', ' ', '=', ' ']
              ++ responseColor env e.Message ++ ['\n']) none
        else if (assertInt (e.Data fieldType)).getD (-1) = typeRequestResponseError then
          match assertString (e.Data fieldRequest) with
          | none => Outcome.panicked
          | some rq =>
            Outcome.returned (lineHead env ts t e.protocolMethod ++ ['(']
              ++ requestReplyColor env rq ++ [')', ' ', '=', ' ']
              ++ errorColor env e.Message ++ ['\n']) none
        else Outcome.returned ("unsupported entry: ".toList ++ env.dumpEntry e) none := by
  have hc : levelProtocol ≠ levelConnection ∧ levelTarget ≠ levelConnection := by decide
  unfold Format.layout
  rcases hl with hl | hl <;>
    simp only [hl, assertInt_int, hc.1, hc.2, if_false, true_or, or_true, if_true,
      Sprintf_eventFormat, requestFormat_eq, Sprintf_requestReplyFormat, lineHead,
      Entry.protocolMethod, List.append_assoc, List.cons_append, List.nil_append]


/-- The length of the front of a line. -/
theorem lineHead_length (env : Env) (ts t m : GoString) :
    (lineHead env ts t m).length
      = max 17 ts.length + (targetColor env t).length + max 48 (methodColor env m).length
        + 2 := by
  simp only [lineHead, List.length_append, List.length_replicate, List.length_cons,
    List.length_nil]
  omega

/-- A record that matches one of the four layouts is rendered as the front of
the line, an opening parenthesis and the rest. -/
theorem layout_head (env : Env) (ts : GoString) (e : Entry) (t : GoString)
    (h : e.matchesLayout t) :
    ∃ tail, Format.layout env ts e
      = Outcome.returned (lineHead env ts t e.protocolMethod ++ '(' :: tail) none := by
  obtain ⟨hl, ht, hy⟩ := h
  rw [layout_protocolOrTarget env ts e hl, ht, assertString_string]
  rcases hy with hy | hy | ⟨hy | hy, rq, hr⟩
  · exact ⟨eventsColor env e.Message ++ [')', '\n'], by
      simp [hy, assertInt_int]⟩
  · exact ⟨requestColor env e.Message ++ [')', '\n'], by
      simp [hy, assertInt_int, typeEvent, typeRequest]⟩
  · exact ⟨requestReplyColor env rq ++ [')', ' ', '=', ' '] ++ responseColor env e.Message
        ++ ['\n'], by
      simp [hy, hr, assertInt_int, assertString_string, typeEvent, typeRequest,
        typeRequestResponse]⟩
  · exact ⟨requestReplyColor env rq ++ [')', ' ', '=', ' '] ++ errorColor env e.Message
        ++ ['\n'], by
      simp [hy, hr, assertInt_int, assertString_string, typeEvent, typeRequest,
        typeRequestResponse, typeRequestResponseError]⟩

/-- The assertion `.(string)` fails exactly on what is not a string. -/
theorem assertString_eq_none (v : Option Value) :
    assertString v = none ↔ ∀ s, v ≠ some (Value.string s) := by
  cases v with
  | none => simp [assertString]
  | some x => cases x <;> simp [assertString]

/-- The assertion `.(int)` fails exactly on what is not an integer. -/
theorem assertInt_eq_none (v : Option Value) :
    assertInt v = none ↔ ∀ n, v ≠ some (Value.int n) := by
  cases v with
  | none => simp [assertInt]
  | some x => cases x <;> simp [assertInt]

/-- Every return of `Format` carries the nil error. -/
theorem layout_error_nil (env : Env) (ts : GoString) (e : Entry) (bytes : GoString)
    (err : Option GoString) (h : Format.layout env ts e = Outcome.returned bytes err) :
    err = none := by
  unfold Format.layout at h
  simp only [Sprintf_protocolFormat, Sprintf_eventFormat, requestFormat_eq,
    Sprintf_requestReplyFormat] at h
  repeat' split at h
  all_goals first
    | (simp at h; done)
    | (injection h with h1 h2; exact h2.symm)

/-- The type read by `Format` is a given type other than the default `-1`
exactly when the type field is that integer. -/
theorem protocolType_eq_iff (v : Option Value) (k : Int) (hk : k ≠ -1) :
    (assertInt v).getD (-1) = k ↔ v = some (Value.int k) := by
  cases v with
  | none => simp [assertInt]; exact fun h => hk h.symm
  | some x =>
    cases x with
    | int n => simp [assertInt]
    | string s => simp [assertInt]; exact fun h => hk h.symm
    | other => simp [assertInt]; exact fun h => hk h.symm

/-- A record that matches one of the six layouts is rendered as a line that
begins with the timestamp, with the nil error. -/
theorem layout_hasLayout (env : Env) (ts : GoString) (e : Entry) (h : e.hasLayout) :
    ∃ tail, Format.layout env ts e = Outcome.returned (ts ++ tail) none := by
  rcases h with ⟨hl, hs | hs⟩ | ⟨t, ht⟩
  · refine ⟨List.replicate (17 - ts.length) ' ' ++ [' '] ++ protocolColor env e.Message
      ++ ['\n'], ?_⟩
    rw [layout_connection_info env ts e hl hs]
    simp only [List.append_assoc]
  · refine ⟨List.replicate (17 - ts.length) ' ' ++ [' '] ++ errorColor env e.Message
      ++ ['\n'], ?_⟩
    rw [layout_connection_error env ts e hl hs]
    simp only [List.append_assoc]
  · obtain ⟨tail, h2⟩ := layout_head env ts e t ht
    refine ⟨List.replicate (17 - ts.length) ' ' ++ [' '] ++ targetColor env t ++ [' ']
      ++ List.replicate (48 - (methodColor env e.protocolMethod).length) ' '
      ++ methodColor env e.protocolMethod ++ '(' :: tail, ?_⟩
    rw [h2]
    simp only [lineHead, List.append_assoc]
/-! ## The claims -/

set_option maxRecDepth 100000 in
/-- C1 (code defect): the request payload and the response go through colour
functions made by `SprintfFunc`, which read them as format strings. For the
sample record with request `q%20r` and message `a%20b` the line returned by
`Format` has `q%!r(MISSING)` and `a%!b(MISSING)` in their place, and contains
neither the request text nor the message text. -/
theorem reply_line_mangles_percent :
    (FramesFormatter.Format sampleEnv ⟨0⟩ replyEntry).2
        = Outcome.returned
            ("1500000000123".toList ++ List.replicate 4 ' ' ++ " t1 ".toList
              ++ List.replicate 35 ' '
              ++ "Page.navigate(q%!r(MISSING)) = a%!b(MISSING)\n".toList) none
      ∧ ¬ ("q%20r".toList <:+:
            "1500000000123".toList ++ List.replicate 4 ' ' ++ " t1 ".toList
              ++ List.replicate 35 ' '
              ++ "Page.navigate(q%!r(MISSING)) = a%!b(MISSING)\n".toList)
      ∧ ¬ ("a%20b".toList <:+:
            "1500000000123".toList ++ List.replicate 4 ' ' ++ " t1 ".toList
              ++ List.replicate 35 ' '
              ++ "Page.navigate(q%!r(MISSING)) = a%!b(MISSING)\n".toList) := by
  refine ⟨by decide, by decide, by decide⟩

/-- C2 (code defect): the message of a connection-level record goes through
`protocolColor`, made by `SprintfFunc`, which reads it as a format string. For
the sample record with message `a%20b` the line returned by `Format` is the
timestamp and `a%!b(MISSING)`, not the two-field line with the message. -/
theorem connection_line_mangles_percent :
    (FramesFormatter.Format sampleEnv ⟨0⟩ connectionEntry).2
        = Outcome.returned ("1500000000123     a%!b(MISSING)\n".toList) none
      ∧ (FramesFormatter.Format sampleEnv ⟨0⟩ connectionEntry).2
        ≠ Outcome.returned ("1500000000123     a%20b\n".toList) none := by
  refine ⟨by decide, by decide⟩

/-- C3 (counterexample): with delta mode off, a successful call on a fresh
formatter leaves `lastTime` at 0, while the record's time is 1500000000123456789
nanoseconds. -/
theorem lastTime_stale_without_delta :
    (FramesFormatter.Format sampleEnv ⟨0⟩ (connectedAt sampleTime)).2
        = Outcome.returned ("1500000000123     connected\n".toList) none
      ∧ (FramesFormatter.Format sampleEnv ⟨0⟩ (connectedAt sampleTime)).1.lastTime = 0
      ∧ (connectedAt sampleTime).Time.UnixNano = 1500000000123456789 := by
  refine ⟨by decide, by decide, by decide⟩

/-- C3 (amended): after every call of `Format`, `lastTime` is the record's time
in Unix nanoseconds when delta mode is on, and is what it was before the call
when delta mode is off. -/
theorem lastTime_after_Format (env : Env) (f : FramesFormatter) (e : Entry) :
    (f.Format env e).1.lastTime = if env.flagDelta then e.Time.UnixNano else f.lastTime := by
  rw [Format_state, stamp_lastTime]

/-- C4 (counterexample): in delta mode, on a fresh formatter. First, a record
stamped at the Unix epoch followed by a record five milliseconds later: the
second record is rendered with the delta `0.00`, not `5.00`. Second, a record
stamped 5,000,000,000 seconds before the epoch followed by one stamped
5,000,000,000 seconds after it: the difference, `10^19` nanoseconds, wraps
around, and the printed delta is within a hundredth of 8446744073709.551616
milliseconds, more than `10^12` milliseconds away from the `10^13` of the
difference. Third, a target-level record without a type, as the first record:
it is rendered as the line for unsupported entries, which has no timestamp and
no delta. -/
theorem delta_zero_after_epoch :
    ((connectedAt fiveMillis).Time.UnixNano - (connectedAt epoch).Time.UnixNano = 5000000
      ∧ (FramesFormatter.Format sampleEnvDelta
          (FramesFormatter.Format sampleEnvDelta ⟨0⟩ (connectedAt epoch)).1
          (connectedAt fiveMillis)).2
        = Outcome.returned ("5 Δ    0.00ms     connected\n".toList) none)
    ∧ ((connectedAt longAfter).Time.UnixNano - (connectedAt longBefore).Time.UnixNano
          = 10000000000000000000
      ∧ |((hundredths (Format.deltaValue
            (FramesFormatter.Format sampleEnvDelta ⟨0⟩ (connectedAt longBefore)).1
            (connectedAt longAfter)) : ℕ) : ℚ) / 100 - 8446744073709551616 / 1000000|
          < 1 / 100
      ∧ 1000000000000 < |((hundredths (Format.deltaValue
            (FramesFormatter.Format sampleEnvDelta ⟨0⟩ (connectedAt longBefore)).1
            (connectedAt longAfter)) : ℕ) : ℚ) / 100 - 10000000000000000000 / 1000000|)
    ∧ (FramesFormatter.Format sampleEnvDelta ⟨0⟩ untypedEntry).2
        = Outcome.returned ("unsupported entry: hello".toList) none := by
  refine ⟨⟨by decide, ?_⟩, ⟨by decide, ?_⟩, by decide⟩
  · rw [Format_outcome, Format_state_delta _ _ _ rfl,
      layout_connection_info _ _ _ rfl rfl, stamp_text]
    have h1 : Format.deltaValue ⟨(connectedAt epoch).Time.UnixNano⟩ (connectedAt fiveMillis)
        = 0 := by
      unfold Format.deltaValue
      rw [if_pos (by decide)]
    rw [h1, SprintfDelta_zero]
    decide
  · rw [Format_state_delta _ _ _ rfl]
    have h1 : Format.deltaValue ⟨(connectedAt longBefore).Time.UnixNano⟩ (connectedAt longAfter)
        = mathAbs (float64Div (float64 (-8446744073709551616)) (float64 Millisecond)) := by
      unfold Format.deltaValue
      dsimp only
      rw [if_neg (by decide)]
      have : wrapInt64 ((connectedAt longAfter).Time.UnixNano
          - (connectedAt longBefore).Time.UnixNano) = -8446744073709551616 := by decide
      rw [this]
    rw [h1]
    have h2 := delta_hundredths_close (-8446744073709551616) (by norm_num)
    have h3 : |((-8446744073709551616 : ℤ) : ℚ)| = 8446744073709551616 := by norm_num
    rw [h3] at h2
    refine ⟨h2, ?_⟩
    rw [abs_lt] at h2
    rw [lt_abs]
    right
    linarith [h2.2]

/-- C4 (amended): in delta mode, on a fresh formatter. Every first record that
matches one of the six layouts is rendered as a line that begins with its
timestamp, a blank and the delta `0.00`. For every first record not stamped at
the Unix epoch (Unix nanoseconds 0) and every second record whose time differs
from the first by less than `2^63` nanoseconds: every second record that matches
one of the six layouts is rendered as a line that begins with its timestamp, a
blank and the delta; the delta is printed as the whole part of its hundredths, a
point and two decimals in a field of eight characters; it is not negative; it
is within a hundredth of a millisecond of `|t2 - t1|`, and is `|t2 - t1|` in
milliseconds rounded to a nearest hundredth when `|t2 - t1|` is below `2^53`
nanoseconds; and it is the same for a third record as far before the first as
the second is after it. -/
theorem delta_of_second_record (env : Env) (hdelta : env.flagDelta = true) :
    (∀ e1 : Entry, e1.hasLayout →
        ∃ tail, (FramesFormatter.Format env ⟨0⟩ e1).2
          = Outcome.returned
              (Format.timestamp env e1 ++ " Δ    0.00ms".toList ++ tail) none)
      ∧ ∀ e1 e2 : Entry, e1.Time.UnixNano ≠ 0 →
          |e2.Time.UnixNano - e1.Time.UnixNano| < 2 ^ 63 →
          (e2.hasLayout →
            ∃ tail, (FramesFormatter.Format env (FramesFormatter.Format env ⟨0⟩ e1).1 e2).2
              = Outcome.returned
                  (Format.timestamp env e2 ++ [' ']
                    ++ SprintfDelta
                        (Format.deltaValue (FramesFormatter.Format env ⟨0⟩ e1).1 e2)
                    ++ tail) none)
          ∧ SprintfDelta (Format.deltaValue (FramesFormatter.Format env ⟨0⟩ e1).1 e2)
              = ['Δ']
                ++ List.replicate
                    (8 - (Nat.toDigits 10
                        (hundredths
                          (Format.deltaValue (FramesFormatter.Format env ⟨0⟩ e1).1 e2) / 100)
                      ++ ['.']
                      ++ zeroPad 2
                        (hundredths
                          (Format.deltaValue (FramesFormatter.Format env ⟨0⟩ e1).1 e2)
                          % 100)).length) ' '
                ++ (Nat.toDigits 10
                      (hundredths
                        (Format.deltaValue (FramesFormatter.Format env ⟨0⟩ e1).1 e2) / 100)
                    ++ ['.']
                    ++ zeroPad 2
                      (hundredths
                        (Format.deltaValue (FramesFormatter.Format env ⟨0⟩ e1).1 e2) % 100))
                ++ "ms".toList
          ∧ 0 ≤ Format.deltaValue (FramesFormatter.Format env ⟨0⟩ e1).1 e2
          ∧ |((hundredths
                (Format.deltaValue (FramesFormatter.Format env ⟨0⟩ e1).1 e2) : ℕ) : ℚ) / 100
              - |((e2.Time.UnixNano - e1.Time.UnixNano : ℤ) : ℚ)| / 1000000| < 1 / 100
          ∧ (|e2.Time.UnixNano - e1.Time.UnixNano| < 2 ^ 53 →
              |((hundredths
                  (Format.deltaValue (FramesFormatter.Format env ⟨0⟩ e1).1 e2) : ℕ) : ℚ)
                - |((e2.Time.UnixNano - e1.Time.UnixNano : ℤ) : ℚ)| / 10000| ≤ 1 / 2)
          ∧ ∀ e3 : Entry,
              e3.Time.UnixNano - e1.Time.UnixNano
                = -(e2.Time.UnixNano - e1.Time.UnixNano) →
              Format.deltaValue (FramesFormatter.Format env ⟨0⟩ e1).1 e3
                = Format.deltaValue (FramesFormatter.Format env ⟨0⟩ e1).1 e2 := by
  constructor
  · intro e1 hlay
    have hfirst : (Format.stamp env ⟨0⟩ e1).2
        = Format.timestamp env e1 ++ " Δ    0.00ms".toList := by
      rw [stamp_text, if_pos hdelta]
      have : Format.deltaValue ⟨0⟩ e1 = 0 := by simp [Format.deltaValue]
      rw [this, SprintfDelta_zero]
      rfl
    obtain ⟨tail, ht⟩ := layout_hasLayout env (Format.stamp env ⟨0⟩ e1).2 e1 hlay
    exact ⟨tail, by rw [Format_outcome, ht, hfirst]⟩
  · intro e1 e2 h1 hfit
    rw [Format_state_delta env ⟨0⟩ e1 hdelta]
    have hv := deltaValue_of_fits e1.Time.UnixNano e2 h1 hfit
    have hnn : 0 ≤ Format.deltaValue ⟨e1.Time.UnixNano⟩ e2 := by
      rw [hv]; exact delta_nonneg _
    refine ⟨?_, SprintfDelta_of_nonneg _ hnn, hnn, ?_, ?_, ?_⟩
    · intro hlay
      obtain ⟨tail, ht⟩ :=
        layout_hasLayout env (Format.stamp env ⟨e1.Time.UnixNano⟩ e2).2 e2 hlay
      refine ⟨tail, ?_⟩
      rw [Format_outcome, ht, stamp_text, if_pos hdelta]
      simp only [List.append_assoc]
    · rw [hv]
      exact delta_hundredths_close _ (le_of_lt hfit)
    · intro h53
      rw [hv]
      exact delta_hundredths_nearest _ h53
    · intro e3 h3
      have hfit3 : |e3.Time.UnixNano - e1.Time.UnixNano| < 2 ^ 63 := by
        rw [h3, abs_neg]; exact hfit
      rw [hv, deltaValue_of_fits e1.Time.UnixNano e3 h1 hfit3, h3, delta_neg]

/-- C4 (witness): in delta mode the sample connection record as the first
record, and a connection record five milliseconds after the epoch as the
second. -/
theorem delta_of_second_record_witness :
    sampleEnvDelta.flagDelta = true ∧ (connectedAt sampleTime).hasLayout
      ∧ (connectedAt sampleTime).Time.UnixNano ≠ 0
      ∧ |(connectedAt fiveMillis).Time.UnixNano - (connectedAt sampleTime).Time.UnixNano|
          < 2 ^ 63
      ∧ (connectedAt fiveMillis).hasLayout
      ∧ (∃ tail, (FramesFormatter.Format sampleEnvDelta ⟨0⟩ (connectedAt sampleTime)).2
          = Outcome.returned
              (Format.timestamp sampleEnvDelta (connectedAt sampleTime)
                ++ " Δ    0.00ms".toList ++ tail) none)
      ∧ (∃ tail, (FramesFormatter.Format sampleEnvDelta
            (FramesFormatter.Format sampleEnvDelta ⟨0⟩ (connectedAt sampleTime)).1
            (connectedAt fiveMillis)).2
          = Outcome.returned
              (Format.timestamp sampleEnvDelta (connectedAt fiveMillis) ++ [' ']
                ++ SprintfDelta
                    (Format.deltaValue
                      (FramesFormatter.Format sampleEnvDelta ⟨0⟩ (connectedAt sampleTime)).1
                      (connectedAt fiveMillis))
                ++ tail) none)
      ∧ 0 ≤ Format.deltaValue
          (FramesFormatter.Format sampleEnvDelta ⟨0⟩ (connectedAt sampleTime)).1
          (connectedAt fiveMillis) :=
  ⟨rfl, Or.inl ⟨rfl, Or.inl rfl⟩, by decide, by decide, Or.inl ⟨rfl, Or.inl rfl⟩,
    (delta_of_second_record sampleEnvDelta rfl).1 (connectedAt sampleTime)
      (Or.inl ⟨rfl, Or.inl rfl⟩),
    ((delta_of_second_record sampleEnvDelta rfl).2 (connectedAt sampleTime)
      (connectedAt fiveMillis) (by decide) (by decide)).1 (Or.inl ⟨rfl, Or.inl rfl⟩),
    ((delta_of_second_record sampleEnvDelta rfl).2 (connectedAt sampleTime)
      (connectedAt fiveMillis) (by decide) (by decide)).2.2.1⟩

/-- C5: a record whose level is an integer and which matches none of the six
layouts (connection level with a severity other than informational and error;
protocol or target level with a string target id and a type that is unset, not
an integer or not one of the four types; any other level) makes `Format` return
the nil error and a non-empty text that begins with `unsupported entry: `. -/
theorem unsupported_entry_line (env : Env) (f : FramesFormatter) (e : Entry) (n : Int)
    (hlevel : e.Data fieldLevel = some (Value.int n))
    (h : (n = levelConnection ∧ e.Level ≠ InfoLevel ∧ e.Level ≠ ErrorLevel)
      ∨ ((n = levelProtocol ∨ n = levelTarget)
          ∧ (∃ t, e.Data fieldTargetId = some (Value.string t))
          ∧ ∀ k, e.Data fieldType = some (Value.int k) →
              k ≠ typeEvent ∧ k ≠ typeRequest ∧ k ≠ typeRequestResponse
                ∧ k ≠ typeRequestResponseError)
      ∨ (n ≠ levelConnection ∧ n ≠ levelProtocol ∧ n ≠ levelTarget)) :
    ∃ bytes, (f.Format env e).2 = Outcome.returned bytes none ∧ bytes ≠ []
      ∧ "unsupported entry: ".toList <+: bytes := by
  refine ⟨"unsupported entry: ".toList ++ env.dumpEntry e, ?_, by simp, List.prefix_append _ _⟩
  rw [Format_outcome]
  rcases h with ⟨hn, h1, h2⟩ | ⟨hn, ⟨t, ht⟩, hk⟩ | ⟨h1, h2, h3⟩
  · simp [Format.layout, hlevel, assertInt, hn, h1, h2]
  · have hty : ∀ k, assertInt (e.Data fieldType) = some k →
        k ≠ typeEvent ∧ k ≠ typeRequest ∧ k ≠ typeRequestResponse
          ∧ k ≠ typeRequestResponseError := by
      intro k hk2
      apply hk
      cases hd : e.Data fieldType with
      | none => simp [hd, assertInt] at hk2
      | some v =>
        cases v with
        | int m => simp [hd, assertInt] at hk2; rw [hk2]
        | string s => simp [hd, assertInt] at hk2
        | other => simp [hd, assertInt] at hk2
    have hne : n ≠ levelConnection := by
      rcases hn with hn | hn <;> (rw [hn]; decide)
    cases hty2 : assertInt (e.Data fieldType) with
    | none =>
      simp [Format.layout, hlevel, assertInt_int, hne, hn, ht, assertString_string, hty2,
        typeEvent, typeRequest, typeRequestResponse, typeRequestResponseError]
    | some k =>
      obtain ⟨k1, k2, k3, k4⟩ := hty k hty2
      simp [Format.layout, hlevel, assertInt_int, hne, hn, ht, assertString_string, hty2,
        k1, k2, k3, k4]
  · simp [Format.layout, hlevel, assertInt, h1, h2, h3]

/-- C5 (witness): a target-level record with a target id and no type. -/
theorem unsupported_entry_line_witness :
    untypedEntry.Data fieldLevel = some (Value.int levelTarget)
      ∧ ∃ bytes, (FramesFormatter.Format sampleEnv ⟨0⟩ untypedEntry).2
            = Outcome.returned bytes none ∧ bytes ≠ []
          ∧ "unsupported entry: ".toList <+: bytes :=
  ⟨rfl, unsupported_entry_line sampleEnv ⟨0⟩ untypedEntry levelTarget rfl
    (Or.inr (Or.inl ⟨Or.inr rfl, ⟨"t1".toList, rfl⟩, fun k hk => by
      have : untypedEntry.Data fieldType = none := by decide
      rw [this] at hk
      exact absurd hk (by simp)⟩))⟩

/-- C6 (counterexample): in delta mode a protocol-level record without a target
id makes `Format` panic, and the formatter, fresh before the call, has
`lastTime` 1500000000123456789 after it. -/
theorem lastTime_changed_by_failed_call :
    (FramesFormatter.Format sampleEnvDelta ⟨0⟩ noTargetEntry).2 = Outcome.panicked
      ∧ (FramesFormatter.Format sampleEnvDelta ⟨0⟩ noTargetEntry).1.lastTime
          = 1500000000123456789 := by
  refine ⟨by decide, by decide⟩

/-- C6 (amended): for a protocol- or target-level record without a string
target id the call of `Format` panics; `lastTime` is what it was before the call
when delta mode is off, and is the record's time in Unix nanoseconds when delta
mode is on. -/
theorem missing_targetId_panics (env : Env) (f : FramesFormatter) (e : Entry)
    (hl : e.protocolOrTarget) (ht : assertString (e.Data fieldTargetId) = none) :
    (f.Format env e).2 = Outcome.panicked
      ∧ (f.Format env e).1.lastTime
          = if env.flagDelta then e.Time.UnixNano else f.lastTime := by
  refine ⟨?_, by rw [Format_state, stamp_lastTime]⟩
  rw [Format_outcome]
  rcases hl with hl | hl <;>
    simp [Format.layout, hl, ht, assertInt, levelConnection, levelProtocol, levelTarget]

/-- C6 (witness): the sample record without a target id, delta mode off. -/
theorem missing_targetId_panics_witness :
    noTargetEntry.protocolOrTarget ∧ assertString (noTargetEntry.Data fieldTargetId) = none
      ∧ (FramesFormatter.Format sampleEnv ⟨7⟩ noTargetEntry).2 = Outcome.panicked
      ∧ (FramesFormatter.Format sampleEnv ⟨7⟩ noTargetEntry).1.lastTime
          = if sampleEnv.flagDelta then noTargetEntry.Time.UnixNano else 7 :=
  ⟨Or.inl rfl, rfl, missing_targetId_panics sampleEnv ⟨7⟩ noTargetEntry (Or.inl rfl) rfl⟩

/-- C7 (code defect): the log directory is pasted into the format string of
`Sprintf`, so a percent sign in it starts a verb. With the log directory
`/tmp/50%` and the target name `t1` the file opened is
`/tmp/50%!/(string=t1)%!s(MISSING).log`, not `/tmp/50%/t1.log`. -/
theorem logFilePath_mangles_percent :
    (createLogWriter sampleEnvPercentDir sampleFileSystem "t1".toList).1
        = [Syscall.Stat "/tmp/50%!".toList,
            Syscall.OpenFile "/tmp/50%!/(string=t1)%!s(MISSING).log".toList]
      ∧ (createLogWriter sampleEnvPercentDir sampleFileSystem "t1".toList).2
        = Except.ok (Writer.MultiWriter
            [Writer.file "/tmp/50%!/(string=t1)%!s(MISSING).log".toList, Writer.Stdout])
      ∧ "/tmp/50%!/(string=t1)%!s(MISSING).log".toList
        ≠ sampleEnvPercentDir.flagDirLogs ++ "/".toList ++ "t1".toList ++ ".log".toList := by
  refine ⟨by decide, by rfl, by decide⟩

/-- C8: the writer that `createLogWriter` returns. For the empty name it is the
discard sink in quiet mode and the console stream otherwise, and no call to the
operating system is made. For a non-empty name, when the directory exists or is
created and the file is opened, it is the file alone in quiet mode and the
fan-out to the file and the console stream otherwise; and whenever a writer is
returned it is that one. -/
theorem createLogWriter_writer (env : Env) (fs : FileSystem) (filename : GoString) :
    (filename = [] → env.flagQuiet = true →
        createLogWriter env fs filename = ([], Except.ok Writer.Discard))
      ∧ (filename = [] → env.flagQuiet = false →
        createLogWriter env fs filename = ([], Except.ok Writer.Stdout))
      ∧ (filename ≠ [] →
          (fs.Stat (env.filepathDir
              (Sprintf env.fmtLib (env.flagDirLogs ++ "/%s.log".toList) [filename])) = none
            ∨ fs.MkdirAll (env.filepathDir
              (Sprintf env.fmtLib (env.flagDirLogs ++ "/%s.log".toList) [filename])) = none) →
          fs.OpenFile (Sprintf env.fmtLib (env.flagDirLogs ++ "/%s.log".toList) [filename])
            = none →
          (createLogWriter env fs filename).2 = Except.ok
            (if env.flagQuiet then
              Writer.file (Sprintf env.fmtLib (env.flagDirLogs ++ "/%s.log".toList) [filename])
            else Writer.MultiWriter
              [Writer.file
                (Sprintf env.fmtLib (env.flagDirLogs ++ "/%s.log".toList) [filename]),
                Writer.Stdout]))
      ∧ (filename ≠ [] → ∀ w, (createLogWriter env fs filename).2 = Except.ok w →
          w = if env.flagQuiet then
              Writer.file (Sprintf env.fmtLib (env.flagDirLogs ++ "/%s.log".toList) [filename])
            else Writer.MultiWriter
              [Writer.file
                (Sprintf env.fmtLib (env.flagDirLogs ++ "/%s.log".toList) [filename]),
                Writer.Stdout]) := by
  refine ⟨?_, ?_, ?_, ?_⟩
  · intro h1 h2
    simp [createLogWriter, h1, h2]
  · intro h1 h2
    simp [createLogWriter, h1, h2]
  · intro h1 h2 h3
    unfold createLogWriter
    rw [if_neg h1]
    simp only [h3]
    rcases h2 with h2 | h2
    · simp only [h2]
      split <;> simp_all
    · cases hs : fs.Stat (env.filepathDir
          (Sprintf env.fmtLib (env.flagDirLogs ++ "/%s.log".toList) [filename])) with
      | none => simp only []; split <;> simp_all
      | some x => simp only [h2]; split <;> simp_all
  · intro h1 w hw
    unfold createLogWriter at hw
    rw [if_neg h1] at hw
    simp only [] at hw
    repeat' split at hw
    all_goals first
      | (simp at hw; done)
      | (injection hw with hw; simp_all)

/-- C8 (witness): with the sample flags (not quiet) the name `t1` gives the
fan-out to `logs/t1.log` and the console stream, and the empty name gives the
console stream without a call to the operating system. -/
theorem createLogWriter_writer_witness :
    (createLogWriter sampleEnv sampleFileSystem "t1".toList).2
        = Except.ok (Writer.MultiWriter [Writer.file "logs/t1.log".toList, Writer.Stdout])
      ∧ createLogWriter sampleEnv sampleFileSystem [] = ([], Except.ok Writer.Stdout) :=
  ⟨(createLogWriter_writer sampleEnv sampleFileSystem "t1".toList).2.2.1 (by decide)
      (Or.inl rfl) rfl,
    (createLogWriter_writer sampleEnv sampleFileSystem []).2.1 rfl rfl⟩

/-- C9 (code defect): the message of an event goes through `eventsColor`, made by
`SprintfFunc`, which reads it as a format string, while the message of a request
goes through `requestColor`, made by `SprintFunc`, which does not. For the
sample event with message `a%20b` the line has `a%!b(MISSING)` between the
parentheses; the same record as a request has `a%20b` there. -/
theorem event_line_mangles_percent :
    (FramesFormatter.Format sampleEnv ⟨0⟩ eventEntry).2
        = Outcome.returned
            ("1500000000123".toList ++ List.replicate 4 ' ' ++ " t1 ".toList
              ++ List.replicate 29 ' ' ++ "Page.loadEventFired(a%!b(MISSING))\n".toList) none
      ∧ (FramesFormatter.Format sampleEnv ⟨0⟩ eventEntry).2
        ≠ Outcome.returned
            ("1500000000123".toList ++ List.replicate 4 ' ' ++ " t1 ".toList
              ++ List.replicate 29 ' ' ++ "Page.loadEventFired(a%20b)\n".toList) none
      ∧ (FramesFormatter.Format sampleEnv ⟨0⟩ requestEntry).2
        = Outcome.returned
            ("1500000000123".toList ++ List.replicate 4 ' ' ++ " t1 ".toList
              ++ List.replicate 29 ' ' ++ "Page.loadEventFired(a%20b)\n".toList) none := by
  refine ⟨by decide, by decide, by decide⟩

/-- C11 (counterexample): a protocol-level record with a target id and no event
type, and the same record at the target level. Both are rendered as the line for
unsupported entries, which shows the fields of the record: the one has
`level:2`, the other `level:4`. -/
theorem unsupported_line_shows_level :
    untypedProtocolEntry.Data fieldLevel = some (Value.int levelProtocol)
      ∧ (FramesFormatter.Format sampleEnvDump ⟨0⟩ untypedProtocolEntry).2
        = Outcome.returned
            ("unsupported entry: &\x7bLogger:0xc42000e0a0 Data:map[level:2 targetId:t1] ".toList
              ++ "Time:2017-07-14 02:40:00.123456789 +0000 UTC ".toList
              ++ "Level:info Message:hello Buffer:<nil>\x7d".toList) none
      ∧ (FramesFormatter.Format sampleEnvDump ⟨0⟩
            (untypedProtocolEntry.withLevel levelTarget)).2
        = Outcome.returned
            ("unsupported entry: &\x7bLogger:0xc42000e0a0 Data:map[level:4 targetId:t1] ".toList
              ++ "Time:2017-07-14 02:40:00.123456789 +0000 UTC ".toList
              ++ "Level:info Message:hello Buffer:<nil>\x7d".toList) none
      ∧ (FramesFormatter.Format sampleEnvDump ⟨0⟩
            (untypedProtocolEntry.withLevel levelTarget)).2
        ≠ (FramesFormatter.Format sampleEnvDump ⟨0⟩ untypedProtocolEntry).2 := by
  refine ⟨by decide, by decide, by decide, by decide⟩

/-- C11 (amended): changing the level of a record from the protocol level to the
target level leaves the resulting formatter as it is, and leaves the outcome as
it is (the same bytes, the same nil error, or a panic in both cases) whenever
the record has no string target id or has one of the four event types. In the
remaining case, a string target id and none of the four event types, both
outcomes are the line for unsupported entries, each with the rendering of its
own record. -/
theorem protocol_target_alike (env : Env) (f : FramesFormatter) (e : Entry)
    (h : e.Data fieldLevel = some (Value.int levelProtocol)) :
    (f.Format env (e.withLevel levelTarget)).1 = (f.Format env e).1
      ∧ ((assertString (e.Data fieldTargetId) = none ∨ e.hasEventType) →
          (f.Format env (e.withLevel levelTarget)).2 = (f.Format env e).2)
      ∧ ((f.Format env (e.withLevel levelTarget)).2 = (f.Format env e).2
          ∨ ((f.Format env e).2
                = Outcome.returned ("unsupported entry: ".toList ++ env.dumpEntry e) none
              ∧ (f.Format env (e.withLevel levelTarget)).2
                = Outcome.returned
                    ("unsupported entry: ".toList
                      ++ env.dumpEntry (e.withLevel levelTarget)) none))
      ∧ ((f.Format env (e.withLevel levelTarget)).2 = Outcome.panicked
          ↔ (f.Format env e).2 = Outcome.panicked)
      ∧ (∀ b1 r1 b2 r2, (f.Format env e).2 = Outcome.returned b1 r1 →
          (f.Format env (e.withLevel levelTarget)).2 = Outcome.returned b2 r2 → r1 = r2)
      ∧ ((∃ t, e.Data fieldTargetId = some (Value.string t)) → ¬ e.hasEventType →
          (f.Format env e).2
              = Outcome.returned ("unsupported entry: ".toList ++ env.dumpEntry e) none
            ∧ (f.Format env (e.withLevel levelTarget)).2
              = Outcome.returned
                  ("unsupported entry: ".toList
                    ++ env.dumpEntry (e.withLevel levelTarget)) none) := by
  obtain ⟨w1, w2, w3, w4, w5⟩ := withLevel_Data e levelTarget
  have hs : Format.stamp env f (e.withLevel levelTarget) = Format.stamp env f e :=
    stamp_congr env f e _ rfl
  have hm : (e.withLevel levelTarget).protocolMethod = e.protocolMethod := by
    simp [Entry.protocolMethod, w3]
  have hmsg : (e.withLevel levelTarget).Message = e.Message := rfl
  have hnil : ∀ b1 r1 b2 r2, (f.Format env e).2 = Outcome.returned b1 r1 →
      (f.Format env (e.withLevel levelTarget)).2 = Outcome.returned b2 r2 → r1 = r2 := by
    intro b1 r1 b2 r2 hb1 hb2
    rw [Format_outcome] at hb1 hb2
    rw [layout_error_nil _ _ _ _ _ hb1, layout_error_nil _ _ _ _ _ hb2]
  have hdiag : (∃ t, e.Data fieldTargetId = some (Value.string t)) → ¬ e.hasEventType →
      (f.Format env e).2
          = Outcome.returned ("unsupported entry: ".toList ++ env.dumpEntry e) none
        ∧ (f.Format env (e.withLevel levelTarget)).2
          = Outcome.returned
              ("unsupported entry: ".toList
                ++ env.dumpEntry (e.withLevel levelTarget)) none := by
    rintro ⟨t, ht⟩ hne
    have h1 := layout_protocolOrTarget env (Format.stamp env f e).2 e (Or.inl h)
    have h2 := layout_protocolOrTarget env (Format.stamp env f e).2 (e.withLevel levelTarget)
      (Or.inr w1)
    rw [w4, w2, w5, hm, hmsg] at h2
    have k1 : (assertInt (e.Data fieldType)).getD (-1) ≠ typeEvent := fun hk =>
      hne (Or.inl ((protocolType_eq_iff _ _ (by decide)).mp hk))
    have k2 : (assertInt (e.Data fieldType)).getD (-1) ≠ typeRequest := fun hk =>
      hne (Or.inr (Or.inl ((protocolType_eq_iff _ _ (by decide)).mp hk)))
    have k3 : (assertInt (e.Data fieldType)).getD (-1) ≠ typeRequestResponse := fun hk =>
      hne (Or.inr (Or.inr (Or.inl ((protocolType_eq_iff _ _ (by decide)).mp hk))))
    have k4 : (assertInt (e.Data fieldType)).getD (-1) ≠ typeRequestResponseError :=
      fun hk => hne (Or.inr (Or.inr (Or.inr ((protocolType_eq_iff _ _ (by decide)).mp hk))))
    rw [ht, assertString_string] at h1 h2
    simp only [k1, k2, k3, k4, if_false] at h1 h2
    exact ⟨by rw [Format_outcome, h1], by rw [Format_outcome, hs, h2]⟩
  refine ⟨by rw [Format_state, Format_state, hs], ?_, ?_, ?_, hnil, hdiag⟩ <;>
    clear hnil hdiag
  all_goals
    have h1 := layout_protocolOrTarget env (Format.stamp env f e).2 e (Or.inl h)
    have h2 := layout_protocolOrTarget env (Format.stamp env f e).2 (e.withLevel levelTarget)
      (Or.inr w1)
    rw [w4, w2, w5, hm, hmsg] at h2
    simp only [Format_outcome, hs]
    rw [h1, h2]
    clear h1 h2
    have hty : e.hasEventType →
        (assertInt (e.Data fieldType)).getD (-1) = typeEvent
          ∨ (assertInt (e.Data fieldType)).getD (-1) = typeRequest
          ∨ (assertInt (e.Data fieldType)).getD (-1) = typeRequestResponse
          ∨ (assertInt (e.Data fieldType)).getD (-1) = typeRequestResponseError := by
      rintro (hy | hy | hy | hy) <;> simp [hy, assertInt_int]
    generalize (assertInt (e.Data fieldType)).getD (-1) = ty at hty ⊢
    rcases ht : assertString (e.Data fieldTargetId) with _ | t
  · simp
  · intro hx
    split_ifs <;> first
      | rfl
      | (exfalso
         rcases hx with hx | hx
         · simp at hx
         · rcases hty hx with hx | hx | hx | hx <;> contradiction)
  · simp
  · split_ifs <;> first
      | exact Or.inl rfl
      | exact Or.inr ⟨rfl, rfl⟩
  · simp
  · split_ifs <;> rfl

/-- C11 (witness): the sample event at the protocol level and at the target
level gives the same line. -/
theorem protocol_target_alike_witness :
    ((eventOf "t1".toList).withLevel levelProtocol).Data fieldLevel
        = some (Value.int levelProtocol)
      ∧ (FramesFormatter.Format sampleEnv ⟨0⟩
          (((eventOf "t1".toList).withLevel levelProtocol).withLevel levelTarget)).2
        = (FramesFormatter.Format sampleEnv ⟨0⟩
            ((eventOf "t1".toList).withLevel levelProtocol)).2 :=
  ⟨rfl, (protocol_target_alike sampleEnv ⟨0⟩ ((eventOf "t1".toList).withLevel levelProtocol)
    rfl).2.1 (Or.inr (Or.inl rfl))⟩

/-- C12 (counterexample): two events of the same instant and method, one of the
target `t1` and one of the target `t22`. The target id is printed as it is, so
the opening parenthesis is the character 69 of the first line and the character
70 of the second. -/
theorem parenthesis_moves_with_target :
    (FramesFormatter.Format sampleEnv ⟨0⟩ (eventOf "t1".toList)).2
        = Outcome.returned
            ("1500000000123".toList ++ List.replicate 4 ' ' ++ " t1 ".toList
              ++ List.replicate 29 ' ' ++ "Page.loadEventFired(ready)\n".toList) none
      ∧ ("1500000000123".toList ++ List.replicate 4 ' ' ++ " t1 ".toList
          ++ List.replicate 29 ' ' ++ "Page.loadEventFired(ready)\n".toList).indexOf '(' = 69
      ∧ (FramesFormatter.Format sampleEnv ⟨0⟩ (eventOf "t22".toList)).2
        = Outcome.returned
            ("1500000000123".toList ++ List.replicate 4 ' ' ++ " t22 ".toList
              ++ List.replicate 29 ' ' ++ "Page.loadEventFired(ready)\n".toList) none
      ∧ ("1500000000123".toList ++ List.replicate 4 ' ' ++ " t22 ".toList
          ++ List.replicate 29 ' ' ++ "Page.loadEventFired(ready)\n".toList).indexOf '(' = 70 := by
  refine ⟨by decide, by decide, by decide, by decide⟩

/-- C12 (amended): in all four protocol- and target-level layouts the line is the
same front, an opening parenthesis and the rest; in the front the timestamp is
padded on the right to 17 characters, the styled method name is padded on the
left to 48 characters, and the styled target id is printed as it is. So for two
such records with equally long timestamps and equally long styled target ids,
and styled method names of at most 48 characters, the opening parenthesis after
the method name is at the same place in both lines: 50 characters after the
padded timestamp and the target id. -/
theorem parenthesis_column (env : Env) (f1 f2 : FramesFormatter) (e1 e2 : Entry)
    (t1 t2 : GoString) (h1 : e1.matchesLayout t1) (h2 : e2.matchesLayout t2)
    (hts : (Format.stamp env f1 e1).2.length = (Format.stamp env f2 e2).2.length)
    (htg : (targetColor env t1).length = (targetColor env t2).length)
    (hm1 : (methodColor env e1.protocolMethod).length ≤ 48)
    (hm2 : (methodColor env e2.protocolMethod).length ≤ 48) :
    ∃ tail1 tail2,
      (f1.Format env e1).2
          = Outcome.returned
              (lineHead env (Format.stamp env f1 e1).2 t1 e1.protocolMethod ++ '(' :: tail1)
              none
        ∧ (f2.Format env e2).2
          = Outcome.returned
              (lineHead env (Format.stamp env f2 e2).2 t2 e2.protocolMethod ++ '(' :: tail2)
              none
        ∧ (lineHead env (Format.stamp env f1 e1).2 t1 e1.protocolMethod).length
          = (lineHead env (Format.stamp env f2 e2).2 t2 e2.protocolMethod).length
        ∧ (lineHead env (Format.stamp env f1 e1).2 t1 e1.protocolMethod).length
          = max 17 (Format.stamp env f1 e1).2.length + (targetColor env t1).length + 50 := by
  obtain ⟨tail1, ht1⟩ := layout_head env (Format.stamp env f1 e1).2 e1 t1 h1
  obtain ⟨tail2, ht2⟩ := layout_head env (Format.stamp env f2 e2).2 e2 t2 h2
  refine ⟨tail1, tail2, ?_, ?_, ?_, ?_⟩
  · rw [Format_outcome, ht1]
  · rw [Format_outcome, ht2]
  · rw [lineHead_length, lineHead_length, hts, htg, max_eq_left hm1, max_eq_left hm2]
  · rw [lineHead_length, max_eq_left hm1]

/-- C12 (witness): the sample event of the target `t1` and the sample request of
the same target, which has no method: in both lines the front has 69
characters. -/
theorem parenthesis_column_witness :
    (eventOf "t1".toList).matchesLayout "t1".toList
      ∧ (requestWithMethod none).matchesLayout "t1".toList
      ∧ ∃ tail1 tail2,
        (FramesFormatter.Format sampleEnv ⟨0⟩ (eventOf "t1".toList)).2
            = Outcome.returned
                (lineHead sampleEnv (Format.stamp sampleEnv ⟨0⟩ (eventOf "t1".toList)).2
                  "t1".toList (eventOf "t1".toList).protocolMethod ++ '(' :: tail1) none
          ∧ (FramesFormatter.Format sampleEnv ⟨0⟩ (requestWithMethod none)).2
            = Outcome.returned
                (lineHead sampleEnv (Format.stamp sampleEnv ⟨0⟩ (requestWithMethod none)).2
                  "t1".toList (requestWithMethod none).protocolMethod ++ '(' :: tail2) none
          ∧ (lineHead sampleEnv (Format.stamp sampleEnv ⟨0⟩ (eventOf "t1".toList)).2
              "t1".toList (eventOf "t1".toList).protocolMethod).length
            = (lineHead sampleEnv (Format.stamp sampleEnv ⟨0⟩ (requestWithMethod none)).2
                "t1".toList (requestWithMethod none).protocolMethod).length
          ∧ (lineHead sampleEnv (Format.stamp sampleEnv ⟨0⟩ (eventOf "t1".toList)).2
              "t1".toList (eventOf "t1".toList).protocolMethod).length
            = max 17 (Format.stamp sampleEnv ⟨0⟩ (eventOf "t1".toList)).2.length
              + (targetColor sampleEnv "t1".toList).length + 50 :=
  ⟨⟨Or.inr rfl, rfl, Or.inl rfl⟩, ⟨Or.inr rfl, rfl, Or.inr (Or.inl rfl)⟩,
    parenthesis_column sampleEnv ⟨0⟩ ⟨0⟩ (eventOf "t1".toList) (requestWithMethod none)
      "t1".toList "t1".toList ⟨Or.inr rfl, rfl, Or.inl rfl⟩
      ⟨Or.inr rfl, rfl, Or.inr (Or.inl rfl)⟩ (by decide) (by decide) (by decide) (by decide)⟩

/-- C13 (counterexample): a protocol-level event without a method and without a
target id: the call panics. -/
theorem no_method_no_target_panics :
    noTargetEntry.protocolOrTarget ∧ noTargetEntry.hasEventType
      ∧ noTargetEntry.Data fieldMethod = none
      ∧ (FramesFormatter.Format sampleEnv ⟨0⟩ noTargetEntry).2 = Outcome.panicked := by
  refine ⟨Or.inl (by decide), Or.inl (by decide), by decide, by decide⟩

/-- C13 (amended): for a protocol- or target-level record of one of the four
event types whose method field is absent or not a string, the call of `Format`
ends as it does for the same record with the method set to the empty string:
the same formatter, and the same bytes or a panic in both cases. It returns
without failure when the record has a string target id and, for the two reply
types, a string request. -/
theorem method_optional (env : Env) (f : FramesFormatter) (e : Entry)
    (hl : e.protocolOrTarget) (hy : e.hasEventType)
    (hm : ∀ s, e.Data fieldMethod ≠ some (Value.string s)) :
    f.Format env e = f.Format env (e.withMethod (some (Value.string [])))
      ∧ ((∃ t, e.Data fieldTargetId = some (Value.string t)) →
          (e.hasReplyType → ∃ rq, e.Data fieldRequest = some (Value.string rq)) →
          ∃ bytes, (f.Format env e).2 = Outcome.returned bytes none) := by
  obtain ⟨w1, w2, w3, w4, w5⟩ := withMethod_Data e (some (Value.string []))
  have hs : Format.stamp env f (e.withMethod (some (Value.string [])))
      = Format.stamp env f e := stamp_congr env f e _ rfl
  have hmeth : e.protocolMethod = [] := by
    simp [Entry.protocolMethod, (assertString_eq_none _).mpr hm]
  have hmeth2 : (e.withMethod (some (Value.string []))).protocolMethod = [] := by
    simp [Entry.protocolMethod, w1, assertString_string]
  have hmsg : (e.withMethod (some (Value.string []))).Message = e.Message := rfl
  have hl2 : (e.withMethod (some (Value.string []))).protocolOrTarget := by
    unfold Entry.protocolOrTarget
    rw [w2]
    exact hl
  have h1 := layout_protocolOrTarget env (Format.stamp env f e).2 e hl
  have h2 := layout_protocolOrTarget env (Format.stamp env f e).2
    (e.withMethod (some (Value.string []))) hl2
  rw [w4, w3, w5, hmeth2, hmsg] at h2
  rw [hmeth] at h1
  have hty : (assertInt (e.Data fieldType)).getD (-1) = typeEvent
      ∨ (assertInt (e.Data fieldType)).getD (-1) = typeRequest
      ∨ (assertInt (e.Data fieldType)).getD (-1) = typeRequestResponse
      ∨ (assertInt (e.Data fieldType)).getD (-1) = typeRequestResponseError := by
    rcases hy with hy | hy | hy | hy <;> simp [hy, assertInt_int]
  constructor
  · apply Prod.ext
    · rw [Format_state, Format_state, hs]
    · rw [Format_outcome, Format_outcome, hs, h1, h2]
      rcases assertString (e.Data fieldTargetId) with _ | t
      · rfl
      · rcases hty with c | c | c | c <;>
          simp [c, typeEvent, typeRequest, typeRequestResponse, typeRequestResponseError]
  · rintro ⟨t, ht⟩ hrq
    have hmatch : e.matchesLayout t := by
      refine ⟨hl, ht, ?_⟩
      rcases hy with hy | hy | hy | hy
      · exact Or.inl hy
      · exact Or.inr (Or.inl hy)
      · exact Or.inr (Or.inr ⟨Or.inl hy, hrq (Or.inl hy)⟩)
      · exact Or.inr (Or.inr ⟨Or.inr hy, hrq (Or.inr hy)⟩)
    obtain ⟨tail, ht2⟩ := layout_head env (Format.stamp env f e).2 e t hmatch
    exact ⟨_, by rw [Format_outcome]; exact ht2⟩

/-- C13 (witness): the sample request without a method field, and with a method
field that is not a string, gives the line of the request with the empty
method. -/
theorem method_optional_witness :
    (requestWithMethod none).protocolOrTarget ∧ (requestWithMethod none).hasEventType
      ∧ (FramesFormatter.Format sampleEnv ⟨0⟩ (requestWithMethod none)).2
        = Outcome.returned
            ("1500000000123".toList ++ List.replicate 4 ' ' ++ " t1 ".toList
              ++ List.replicate 48 ' ' ++ "(ready)\n".toList) none
      ∧ FramesFormatter.Format sampleEnv ⟨0⟩ (requestWithMethod (some (Value.int 7)))
        = FramesFormatter.Format sampleEnv ⟨0⟩
            ((requestWithMethod (some (Value.int 7))).withMethod (some (Value.string []))) :=
  ⟨Or.inr rfl, Or.inr (Or.inl rfl),
    ((congrArg Prod.snd
      (method_optional sampleEnv ⟨0⟩ (requestWithMethod none) (Or.inr rfl)
        (Or.inr (Or.inl rfl)) (fun s hs => by simp [requestWithMethod] at hs)).1).trans
      (by decide)),
    (method_optional sampleEnv ⟨0⟩ (requestWithMethod (some (Value.int 7))) (Or.inr rfl)
      (Or.inr (Or.inl rfl)) (fun s hs => by simp [requestWithMethod] at hs)).1⟩

/-- C14: a call of `Format` never returns an error other than nil, and it panics
exactly when the level field is missing or not an integer; or the level is the
protocol or the target level and the target id is missing or not a string; or
the level is the protocol or the target level, the target id is a string, the
type is one of the two reply types and the request is missing or not a
string. -/
theorem Format_panics_iff (env : Env) (f : FramesFormatter) (e : Entry) :
    (∀ bytes err, (f.Format env e).2 = Outcome.returned bytes err → err = none)
      ∧ ((f.Format env e).2 = Outcome.panicked ↔
          (∀ n, e.Data fieldLevel ≠ some (Value.int n))
            ∨ (e.protocolOrTarget ∧ ∀ s, e.Data fieldTargetId ≠ some (Value.string s))
            ∨ (e.protocolOrTarget ∧ (∃ t, e.Data fieldTargetId = some (Value.string t))
                ∧ e.hasReplyType ∧ ∀ s, e.Data fieldRequest ≠ some (Value.string s))) := by
  refine ⟨fun bytes err h =>
    layout_error_nil env _ e bytes err (by rw [← Format_outcome]; exact h), ?_⟩
  rw [Format_outcome]
  generalize (Format.stamp env f e).2 = ts
  by_cases hl : e.protocolOrTarget
  · have hlev : ¬ ∀ n, e.Data fieldLevel ≠ some (Value.int n) := by
      rcases hl with hl | hl <;> (intro hn; exact hn _ hl)
    rw [layout_protocolOrTarget env ts e hl]
    simp only [hl, true_and, hlev, false_or, ← assertString_eq_none]
    rcases ht : assertString (e.Data fieldTargetId) with _ | t
    · simp
    · have hex : ∃ t, e.Data fieldTargetId = some (Value.string t) := by
        by_contra hne
        have : assertString (e.Data fieldTargetId) = none :=
          (assertString_eq_none _).mpr (fun s hs => hne ⟨s, hs⟩)
        rw [this] at ht
        exact absurd ht (by simp)
      have e2 := protocolType_eq_iff (e.Data fieldType) typeRequestResponse (by decide)
      have e4 := protocolType_eq_iff (e.Data fieldType) typeRequestResponseError (by decide)
      simp only [hex, true_and, false_or, Entry.hasReplyType, ← e2, ← e4]
      generalize (assertInt (e.Data fieldType)).getD (-1) = ty
      by_cases c1 : ty = typeEvent
      · simp [c1, typeEvent, typeRequestResponse, typeRequestResponseError]
      · by_cases c2 : ty = typeRequest
        · simp [c2, typeEvent, typeRequest, typeRequestResponse, typeRequestResponseError]
        · by_cases c3 : ty = typeRequestResponse
          · rcases hr : assertString (e.Data fieldRequest) with _ | rq <;>
              simp [c3, typeEvent, typeRequest, typeRequestResponse]
          · by_cases c4 : ty = typeRequestResponseError
            · rcases hr : assertString (e.Data fieldRequest) with _ | rq <;>
                simp [c4, typeEvent, typeRequest, typeRequestResponse,
                  typeRequestResponseError]
            · simp [c1, c2, c3, c4]
  · simp only [hl, false_and, or_false]
    unfold Format.layout
    rcases hlev : e.Data fieldLevel with _ | v
    · simp [assertInt]
    · cases v with
      | int n =>
        have h2 : n ≠ levelProtocol := fun h => hl (Or.inl (by rw [hlev, h]))
        have h4 : n ≠ levelTarget := fun h => hl (Or.inr (by rw [hlev, h]))
        simp only [assertInt]
        by_cases c1 : n = levelConnection
        · simp only [c1, if_true]
          split_ifs <;> simp
        · simp [c1, h2, h4]
      | string s => simp [assertInt]
      | other => simp [assertInt]

end ChromeProtocolProxy
